import Mathlib

/-!
Verification of the tsscm interpreter (a Scheme-style lisp dialect in
TypeScript) against its specification.  The development shallowly embeds
the interpreter's data model and algorithms:

* `Value` mirrors the tagged union `SchemeType` from types.ts
  (`SchemeId`, `SCons`, numbers, strings, booleans, `null`,
  `SchemeBuiltin`, `SchemeClosure`), with two representation choices:
  numbers are rationals (the host uses IEEE doubles; every literal and
  every arithmetic step exercised here is exact), and a `closure` is
  defunctionalized: instead of a compiled body function it stores the
  body s-expression together with the index of its captured frame in
  the global frame store, because analysis in the source is
  syntax-directed and total.  `undef` models the host value
  `undefined`, which can leak into frames through missing fixed
  arguments (`SchemeClosure.bindArgs` reads `args[i]` out of range).

* `Frame`/`State` model the environment: `Frame.bindings` is an
  insertion-ordered association list (the host `Map`), `parent` an
  optional index into `State.frames`.  Mutation (`define`, `set!`,
  `define-macro`) becomes explicit state passing.

* The macro expander `expandMacrosSexp` / `expandMacros` is translated
  from `SchemeAnalyzer.expandMacrosSexp` / `expandMacros`
  (analyzer.ts), parametrized by the macro table and by the function
  used to invoke a transformer closure.

* The evaluator `eval` fuses `SchemeAnalyzer.analyze` with running the
  compiled closure, branch for branch; `TrampolineResult` is the
  two-state trampoline type of types.ts.  A `gas` parameter makes the
  potentially divergent interpreter total, and a `depth` parameter
  models the host call-stack budget: every nested call decrements it,
  while the trampoline driver loop does not, which is exactly the
  stack-safety property of tail calls.

Host-level failures that TypeScript does not guard against (property
access on `null`/`undefined`, spreading a non-iterable) are modelled by
the distinguished error `SchemeError.jsError`; thrown `Error`s keep
their message in `SchemeError.err`.
-/

namespace TsScm

/-- The tagged value union `SchemeType` of types.ts. -/
inductive Value : Type where
  | num (q : ℚ)
  | str (s : String)
  | bool (b : Bool)
  | sym (id : String)
  | nil
  | pair (car cdr : Value)
  | builtin (name : String)
  | closure (params : List String) (rest : Option String) (body : Value) (env : Nat)
  | undef
  deriving DecidableEq, Repr

/-- Errors: `err` is a thrown `Error` with its message; `jsError` is a
host-level runtime failure (TypeError on a bad cast, non-iterable
spread, NaN-producing arithmetic); `outOfGas` and `stackOverflow` are
the resource bounds of the embedding. -/
inductive SchemeError : Type where
  | err (msg : String)
  | jsError (msg : String)
  | outOfGas
  | stackOverflow
  deriving DecidableEq, Repr

/-- Decidable equality of fallible results (used to evaluate the
embedding at concrete inputs). -/
def exceptDecEq {α β : Type} [DecidableEq α] [DecidableEq β] :
    DecidableEq (Except α β)
  | .error x, .error y =>
      if h : x = y then isTrue (h ▸ rfl)
      else isFalse (fun hc => h (Except.error.inj hc))
  | .ok x, .ok y =>
      if h : x = y then isTrue (h ▸ rfl)
      else isFalse (fun hc => h (Except.ok.inj hc))
  | .error _, .ok _ => isFalse (fun hc => Except.noConfusion hc)
  | .ok _, .error _ => isFalse (fun hc => Except.noConfusion hc)

instance {α β : Type} [DecidableEq α] [DecidableEq β] :
    DecidableEq (Except α β) := exceptDecEq

/-- Is the value an `SCons`? -/
def Value.isPair : Value → Bool
  | .pair _ _ => true
  | _ => false

/-- Iterating an `SCons` (`[...sexp]`): yield `car`s while the `cdr` is
a pair; a non-pair tail stops the iteration. -/
def consElems : Value → List Value
  | .pair a d => a :: consElems d
  | _ => []

/-- Build a proper list value from a Lean list (the
`reverse().reduce(cons, null)` idiom of `bindArgs`). -/
def listToValue (l : List Value) : Value :=
  l.foldr Value.pair Value.nil

/-- Sequencing of fallible computations (host control flow: an
exception aborts, otherwise the result feeds the continuation).  A
named combinator rather than the `Monad` instance so that proofs can
rewrite with `exBind_ok`/`exBind_error` step by step. -/
def exBind {α β : Type} (x : Except SchemeError α)
    (f : α → Except SchemeError β) : Except SchemeError β :=
  match x with
  | .error e => .error e
  | .ok a => f a

/-- The `while (current !== null) { push(current.car); current = current.cdr }`
walk used by the splice loop of `analyzeQuasiquote` and by `apply`.
On an improper list the host reads `.car` of a non-object and crashes
with a TypeError; that is the `jsError` case. -/
def consToListJs : Value → Except SchemeError (List Value)
  | .nil => .ok []
  | .pair a d => exBind (consToListJs d) fun r => .ok (a :: r)
  | _ => .error (.jsError "list walk reached a non-pair, non-null tail")

/-- `carIsId` of analyzer.ts: the sexp is a pair whose head is the given symbol. -/
def carIsId (sexp : Value) (id : String) : Bool :=
  match sexp with
  | .pair (.sym s) _ => s = id
  | _ => false

/-- Lookup in an insertion-ordered association list (host `Map.get`). -/
def assocGet (bs : List (String × Value)) (key : String) : Option Value :=
  match bs with
  | [] => none
  | (k, v) :: rest => if k = key then some v else assocGet rest key

/-- Overwrite-or-append in an association list (host `Map.set`). -/
def assocSet (bs : List (String × Value)) (key : String) (v : Value) :
    List (String × Value) :=
  match bs with
  | [] => [(key, v)]
  | (k, w) :: rest =>
      if k = key then (key, v) :: rest else (k, w) :: assocSet rest key v

@[simp] theorem exBind_ok {α β : Type} (a : α)
    (f : α → Except SchemeError β) : exBind (.ok a) f = f a := rfl

@[simp] theorem exBind_error {α β : Type} (e : SchemeError)
    (f : α → Except SchemeError β) : exBind (.error e) f = .error e := rfl

/-- Case analysis on an optional value, as a named combinator (so that
proofs can rewrite with `optCase_some`/`optCase_none`). -/
def optCase {α β : Type} (x : Option α) (fs : α → β) (fn : β) : β :=
  match x with
  | some a => fs a
  | none => fn

@[simp] theorem optCase_some {α β : Type} (a : α) (fs : α → β) (fn : β) :
    optCase (some a) fs fn = fs a := rfl

@[simp] theorem optCase_none {α β : Type} (fs : α → β) (fn : β) :
    optCase none fs fn = fn := rfl

/-- An `exBind` yields `.ok` only when its first stage did. -/
theorem exBind_ok_inv {α β : Type} {x : Except SchemeError α}
    {f : α → Except SchemeError β} {b : β} (h : exBind x f = .ok b) :
    ∃ a, x = .ok a ∧ f a = .ok b := by
  cases x with
  | error e => simp [exBind] at h
  | ok a => exact ⟨a, rfl, h⟩

/-!
## Macro expander

`SchemeAnalyzer.expandMacrosSexp` and `expandMacros` (analyzer.ts).
The expander consults the analyzer's macro table and invokes a
transformer closure via `SchemeClosure.eval`; here both are parameters:
`ms` is the table contents and `applyT` the transformer invocation
(which, like the host's, may throw).  All theorems below hold for every
`applyT`, so nothing is lost by the parametrization.
-/

/-- Check for a macro invocation head: the head must be a `SchemeId`
whose name is in the table, and the stored transformer must be a
`SchemeClosure`; otherwise the expander falls through to the recursive
case. -/
def macroTransformer (ms : List (String × Value)) : Value → Option Value
  | .sym s =>
      match assocGet ms s with
      | some t =>
          match t with
          | .closure ps r b e => some (.closure ps r b e)
          | _ => none
      | none => none
  | _ => none

/-- The raw argument collection `sexp.cdr === null ? [] : [...(sexp.cdr as SCons)]`.
A `cdr` that is neither `null` nor a pair is spread as a non-iterable,
which the host rejects with a TypeError (a host string would iterate
its characters; no macro call site produces one). -/
def macroArgs : Value → Except SchemeError (List Value)
  | .nil => .ok []
  | .pair a d => .ok (a :: consElems d)
  | _ => .error (.jsError "spread of a non-iterable macro argument list")

/-- One whole-tree rewrite pass, `SchemeAnalyzer.expandMacrosSexp`:
returns the (possibly) rewritten tree and a changed bit. -/
def expandMacrosSexp (ms : List (String × Value))
    (applyT : Value → List Value → Except SchemeError Value) :
    Value → Except SchemeError (Value × Bool)
  | .pair c d =>
      -- Don't expand inside quoted or quasiquoted forms
      if c = .sym "quote" ∨ c = .sym "quasiquote" then
        .ok (.pair c d, false)
      else
        optCase (macroTransformer ms c)
          (fun t =>
            exBind (macroArgs d) fun args =>
              exBind (applyT t args) fun r => .ok (r, true))
          (exBind (expandMacrosSexp ms applyT c) fun cr =>
            exBind (expandMacrosSexp ms applyT d) fun dr =>
              if cr.2 || dr.2 then .ok (.pair cr.1 dr.1, true)
              else .ok (.pair c d, false))
  | v => .ok (v, false)

/-- The fixed-point loop `SchemeAnalyzer.expandMacros`: re-run the pass
until it reports no change.  The host loops forever on a
non-terminating macro; the fuel makes that observable as `outOfGas`. -/
def expandMacros (ms : List (String × Value))
    (applyT : Value → List Value → Except SchemeError Value) :
    Nat → Value → Except SchemeError Value
  | 0, _ => .error .outOfGas
  | fuel + 1, current =>
      exBind (expandMacrosSexp ms applyT current) fun r =>
        if r.2 then expandMacros ms applyT fuel r.1 else .ok current

/-- The value is a symbol whose name is a key of the macro table. -/
def headIsMacroKey (ms : List (String × Value)) : Value → Bool
  | .sym s => (assocGet ms s).isSome
  | _ => false

/-- Some subtree (the tree itself included) is a pair whose head symbol
is a key of the macro table — the shape the expander contract says the
result must not contain. -/
def hasMacroHeadSubtree (ms : List (String × Value)) : Value → Bool
  | .pair c d =>
      headIsMacroKey ms c || hasMacroHeadSubtree ms c || hasMacroHeadSubtree ms d
  | _ => false

/-- No pair reachable without passing under a `quote`/`quasiquote` head
has a macro-table key as head symbol: what a no-change pass actually
guarantees. -/
def expandedOutsideQuote (ms : List (String × Value)) : Value → Bool
  | .pair c d =>
      if c = .sym "quote" ∨ c = .sym "quasiquote" then true
      else
        !headIsMacroKey ms c && expandedOutsideQuote ms c &&
          expandedOutsideQuote ms d
  | _ => true

/-- A pass that reports no change returns its input tree unchanged. -/
theorem expandMacrosSexp_unchanged_eq (ms : List (String × Value))
    (applyT : Value → List Value → Except SchemeError Value) (t e : Value)
    (h : expandMacrosSexp ms applyT t = .ok (e, false)) : e = t := by
  cases t
  case pair c d =>
    rw [expandMacrosSexp] at h
    by_cases hq : c = Value.sym "quote" ∨ c = Value.sym "quasiquote"
    · rw [if_pos hq] at h
      injection h with h1
      injection h1 with h2 h3
      exact h2.symm
    · rw [if_neg hq] at h
      rcases hm : macroTransformer ms c with _ | tr
      · -- no transformer: recursive expansion of car and cdr
        simp only [hm, optCase_none] at h
        rcases hc : expandMacrosSexp ms applyT c with ec | ⟨nc, cch⟩
        · rw [hc] at h
          simp at h
        · simp only [hc, exBind_ok] at h
          rcases hd : expandMacrosSexp ms applyT d with ed | ⟨nd, dch⟩
          · rw [hd] at h
            simp at h
          · simp only [hd, exBind_ok] at h
            by_cases hch : (cch || dch) = true
            · rw [if_pos hch] at h
              injection h with h1
              injection h1 with h2 h3
              exact absurd h3 (by simp)
            · rw [if_neg hch] at h
              injection h with h1
              injection h1 with h2 h3
              exact h2.symm
      · simp only [hm, optCase_some] at h
        rcases hargs : macroArgs d with ea | args
        · rw [hargs] at h
          simp at h
        · simp only [hargs, exBind_ok] at h
          rcases happ : applyT tr args with eo | r
          · rw [happ] at h
            simp at h
          · simp only [happ, exBind_ok] at h
            injection h with h1
            injection h1 with h2 h3
            exact absurd h3 (by simp)
  all_goals
    injection h with h1
    injection h1 with h2 h3
    exact h2.symm

/-- Membership from a successful association-list lookup. -/
theorem assocGet_mem (key : String) (v : Value) :
    ∀ (bs : List (String × Value)), assocGet bs key = some v → (key, v) ∈ bs := by
  intro bs
  induction bs with
  | nil => intro h; simp [assocGet] at h
  | cons hd tl ih =>
      intro h
      obtain ⟨k, w⟩ := hd
      rw [assocGet] at h
      split at h
      · injection h with h1
        rename_i heq
        rw [heq, h1]
        exact List.mem_cons_self _ _
      · right
        exact ih h

/-- When the macro table has no transformer registered for a head (in
particular when every table entry is a closure and the head is not a
key), the head is not a macro key. -/
theorem headIsMacroKey_false_of_none (ms : List (String × Value)) (c : Value)
    (hcl : ∀ k v, (k, v) ∈ ms → ∃ ps r b e, v = Value.closure ps r b e)
    (hm : macroTransformer ms c = none) : headIsMacroKey ms c = false := by
  cases c <;> try rfl
  case sym s =>
    rw [headIsMacroKey]
    rcases hget : assocGet ms s with _ | v
    · simp [hget]
    · exfalso
      obtain ⟨ps, r, b, en, rfl⟩ := hcl s v (assocGet_mem s v ms hget)
      rw [macroTransformer, hget] at hm
      simp at hm

/-- When every table entry is a closure (the invariant maintained by
`define-macro`, which only stores results of `analyzeLambda`), a
no-change pass certifies that no macro invocation remains outside
`quote`/`quasiquote` forms. -/
theorem expandMacrosSexp_unchanged_expanded (ms : List (String × Value))
    (applyT : Value → List Value → Except SchemeError Value)
    (hcl : ∀ k v, (k, v) ∈ ms → ∃ ps r b e, v = Value.closure ps r b e) :
    ∀ (t e : Value), expandMacrosSexp ms applyT t = .ok (e, false) →
      expandedOutsideQuote ms t = true := by
  intro t
  induction t
  case pair c d ihc ihd =>
      intro e h
      rw [expandMacrosSexp] at h
      by_cases hq : c = Value.sym "quote" ∨ c = Value.sym "quasiquote"
      · rw [expandedOutsideQuote, if_pos hq]
      · rw [if_neg hq] at h
        rcases hm : macroTransformer ms c with _ | tr
        · -- no transformer: both recursive passes reported no change
          simp only [hm, optCase_none] at h
          rcases hc : expandMacrosSexp ms applyT c with ec | ⟨nc, cch⟩
          · rw [hc] at h
            simp at h
          · simp only [hc, exBind_ok] at h
            rcases hd : expandMacrosSexp ms applyT d with ed | ⟨nd, dch⟩
            · rw [hd] at h
              simp at h
            · simp only [hd, exBind_ok] at h
              by_cases hch : (cch || dch) = true
              · rw [if_pos hch] at h
                injection h with h1
                injection h1 with h2 h3
                exact absurd h3 (by simp)
              · rw [if_neg hch] at h
                have hcch : cch = false := by
                  cases cch
                  · rfl
                  · simp at hch
                have hdch : dch = false := by
                  cases dch
                  · rfl
                  · simp [hcch] at hch
                rw [expandedOutsideQuote, if_neg hq]
                rw [headIsMacroKey_false_of_none ms c hcl hm]
                rw [ihc _ (by rw [hc, hcch]), ihd _ (by rw [hd, hdch])]
                rfl
        · -- transformer present: the pass reports a change or fails
          simp only [hm, optCase_some] at h
          rcases hargs : macroArgs d with ea | args
          · rw [hargs] at h
            simp at h
          · simp only [hargs, exBind_ok] at h
            rcases happ : applyT tr args with eo | r
            · rw [happ] at h
              simp at h
            · simp only [happ, exBind_ok] at h
              injection h with h1
              injection h1 with h2 h3
              exact absurd h3 (by simp)
  all_goals intro e h; rfl

/-- A successful run of the fixed-point loop ends with a pass that
reports no change on the returned tree. -/
theorem expandMacros_fixed (ms : List (String × Value))
    (applyT : Value → List Value → Except SchemeError Value) :
    ∀ (fuel : Nat) (t t' : Value), expandMacros ms applyT fuel t = .ok t' →
      expandMacrosSexp ms applyT t' = .ok (t', false) := by
  intro fuel
  induction fuel with
  | zero => intro t t' h; simp [expandMacros] at h
  | succ n ih =>
      intro t t' h
      rw [expandMacros] at h
      rcases hp : expandMacrosSexp ms applyT t with ep | ⟨expanded, changed⟩
      · rw [hp] at h
        simp at h
      · simp only [hp, exBind_ok] at h
        by_cases hch : changed = true
        · rw [if_pos hch] at h
          exact ih _ _ h
        · rw [if_neg hch] at h
          injection h with h1
          simp at hch
          rw [h1, hch] at hp
          have he := expandMacrosSexp_unchanged_eq ms applyT t' expanded hp
          rw [he] at hp
          exact hp

/-!
## Claims C1 and C7: the macro expander
-/

/-- A concrete macro table with one entry (a transformer closure) and
the tree `(quote (m))`, used to test the expander contract. -/
def exampleMacroTable : List (String × Value) :=
  [("m", Value.closure [] none Value.nil 0)]

/-- The tree `(quote (m))`: a quoted form containing a macro invocation. -/
def quotedMacroCall : Value :=
  Value.pair (Value.sym "quote")
    (Value.pair (Value.pair (Value.sym "m") Value.nil) Value.nil)

/-- COUNTEREXAMPLE to C1.  On the tree `(quote (m))` with `m` a macro,
the expander (with any transformer behaviour; here one returning nil)
terminates immediately and returns the tree unchanged, yet the result
still contains the subtree `(m)`, a pair whose head is a Symbol whose
name is a key of the macro table: the contract "no subtree has a macro
key as head" fails for subtrees inside `quote`/`quasiquote` forms,
which step 2 of the algorithm deliberately skips. -/
theorem c1_expander_contract_counterexample :
    expandMacros exampleMacroTable (fun _ _ => .ok Value.nil) 5 quotedMacroCall
        = .ok quotedMacroCall ∧
      hasMacroHeadSubtree exampleMacroTable quotedMacroCall = true :=
  ⟨rfl, rfl⟩

/-- C1 (amended).  For every value tree on which `expandMacros`
terminates — given the invariant, maintained by `define-macro`, that
every macro-table entry is a transformer closure — the result contains
no subtree that is a macro invocation *outside of quoted or
quasiquoted forms*, and the result is computed by re-running the
whole-tree rewrite pass until a pass reports no change: the final pass
returns the result itself with the changed bit false. -/
theorem c1_expander_contract (ms : List (String × Value))
    (applyT : Value → List Value → Except SchemeError Value) (fuel : Nat)
    (t t' : Value)
    (hcl : ∀ k v, (k, v) ∈ ms → ∃ ps r b e, v = Value.closure ps r b e)
    (h : expandMacros ms applyT fuel t = .ok t') :
    expandMacrosSexp ms applyT t' = .ok (t', false) ∧
      expandedOutsideQuote ms t' = true := by
  have hfix := expandMacros_fixed ms applyT fuel t t' h
  exact ⟨hfix, expandMacrosSexp_unchanged_expanded ms applyT hcl t' t' hfix⟩

/-- Witness for C1: expanding the macro call `(m)` (with a transformer
that rewrites to nil) terminates with a tree satisfying the amended
contract. -/
theorem c1_expander_contract_witness :
    expandMacrosSexp exampleMacroTable (fun _ _ => .ok Value.nil) Value.nil
        = .ok (Value.nil, false) ∧
      expandedOutsideQuote exampleMacroTable Value.nil = true := by
  refine c1_expander_contract exampleMacroTable (fun _ _ => .ok Value.nil) 5
    (Value.pair (Value.sym "m") Value.nil) Value.nil ?_ rfl
  intro k v hm
  rw [exampleMacroTable] at hm
  simp at hm
  exact ⟨[], none, Value.nil, 0, hm.2⟩

/-- C7.  Macro expansion is idempotent after it terminates: if
`expandMacros` terminates on `t` with result `t'`, then running it
again on `t'` (with the same fuel) returns `t'` itself, structurally
identical. -/
theorem c7_expansion_idempotent (ms : List (String × Value))
    (applyT : Value → List Value → Except SchemeError Value) (fuel : Nat)
    (t t' : Value) (h : expandMacros ms applyT fuel t = .ok t') :
    expandMacros ms applyT fuel t' = .ok t' := by
  have hfix := expandMacros_fixed ms applyT fuel t t' h
  cases fuel with
  | zero => simp [expandMacros] at h
  | succ n =>
      rw [expandMacros]
      rw [hfix, exBind_ok]
      rfl

/-- Witness for C7 at a concrete input: one pass on `nil` already
reports no change, and re-running the expander returns `nil` again. -/
theorem c7_expansion_idempotent_witness :
    expandMacros ([] : List (String × Value)) (fun _ _ => .ok Value.nil) 1
        Value.nil = .ok Value.nil :=
  c7_expansion_idempotent [] (fun _ _ => .ok Value.nil) 1 Value.nil Value.nil
    rfl

/-!
## Environment frames (types.ts `Frame`) and the frame store

A host `Frame` holds a mutable `Map` of bindings and a reference to its
parent frame.  The embedding stores all frames in a list indexed by
creation order (`new Frame(parent)` appends) and replaces references by
indices; `State` also carries the analyzer's macro table, which
`define-macro` mutates at evaluation time.
-/

structure Frame : Type where
  bindings : List (String × Value)
  parent : Option Nat
  deriving DecidableEq, Repr

structure State : Type where
  frames : List Frame
  macros : List (String × Value)
  deriving DecidableEq, Repr

/-- Dereference a frame index. -/
def getFrame (s : State) (i : Nat) : Option Frame := s.frames[i]?

/-- `Frame.findFrame(name)`: walk parent links from the current frame
and return the first frame that has the binding, or `none`.  The walk
is bounded by a fuel; `findFrame` supplies `frames.length`, which
always suffices to reach a holder (a walk that revisits a frame can
never leave the loop, so a reachable holder is at distance less than
the number of frames). -/
def findFrameAux (s : State) : Nat → Nat → String → Option Nat
  | 0, _, _ => none
  | fuel + 1, fid, name =>
      optCase (getFrame s fid)
        (fun f =>
          if (assocGet f.bindings name).isSome then some fid
          else optCase f.parent (fun p => findFrameAux s fuel p name) none)
        none

def findFrame (s : State) (fid : Nat) (name : String) : Option Nat :=
  findFrameAux s s.frames.length fid name

/-- `Frame.lookup(name)`: find the owning frame, then read the binding. -/
def lookupVar (s : State) (fid : Nat) (name : String) : Option Value :=
  optCase (findFrame s fid name)
    (fun tf =>
      optCase (getFrame s tf) (fun f => assocGet f.bindings name) none)
    none

/-- `frame.set(name, value)` on the frame with index `i` (no walk). -/
def updateFrame (s : State) (i : Nat) (name : String) (v : Value) : State :=
  optCase (getFrame s i)
    (fun f =>
      { s with
        frames := s.frames.set i { f with bindings := assocSet f.bindings name v } })
    s

/-- `new Frame(parent)`: append a fresh frame, returning its index. -/
def pushFrame (s : State) (f : Frame) : Nat × State :=
  (s.frames.length, { s with frames := s.frames ++ [f] })

/-- `this.macros.set(id, …)` of `analyzeDefineMacro`. -/
def setMacroEntry (s : State) (name : String) (v : Value) : State :=
  { s with macros := assocSet s.macros name v }

/-- Positional parameter binding of `SchemeClosure.bindArgs`: parameter
`i` receives `args[i]`; a missing argument leaves the host value
`undefined` in the slot. -/
def zipParams : List String → List Value → List (String × Value)
  | [], _ => []
  | p :: ps, [] => (p, Value.undef) :: zipParams ps []
  | p :: ps, a :: rest => (p, a) :: zipParams ps rest

/-- Repeated `frame.set` from an empty map (duplicate names overwrite,
as in the host `Map`). -/
def setAllBindings (ps : List (String × Value)) : List (String × Value) :=
  ps.foldl (fun bs kv => assocSet bs kv.1 kv.2) []

/-- `SchemeClosure.bindArgs`: a fresh frame whose parent is the
closure's captured environment, with positional bindings and, when a
rest parameter exists, the remaining arguments as a freshly built
proper list. -/
def bindArgs (params : List String) (rest : Option String) (args : List Value)
    (env : Nat) : Frame :=
  let base := setAllBindings (zipParams params args)
  optCase rest
    (fun r =>
      { bindings := assocSet base r (listToValue (args.drop params.length)),
        parent := some env })
    { bindings := base, parent := some env }

/-- The frame `tf` is the nearest frame holding `x` on the parent chain
starting at `fid`: every frame walked before it lacks the binding. -/
inductive Nearest (s : State) (x : String) : Nat → Nat → Prop where
  | here (fid : Nat) (f : Frame) (hf : getFrame s fid = some f)
      (hx : (assocGet f.bindings x).isSome = true) : Nearest s x fid fid
  | up (fid p tf : Nat) (f : Frame) (hf : getFrame s fid = some f)
      (hx : (assocGet f.bindings x).isSome = false)
      (hp : f.parent = some p) (h : Nearest s x p tf) : Nearest s x fid tf

/-- Soundness of the walk: a found frame is the nearest holder. -/
theorem findFrameAux_nearest (s : State) (x : String) :
    ∀ (fuel fid tf : Nat), findFrameAux s fuel fid x = some tf →
      Nearest s x fid tf := by
  intro fuel
  induction fuel with
  | zero => intro fid tf h; simp [findFrameAux] at h
  | succ n ih =>
      intro fid tf h
      rw [findFrameAux] at h
      rcases hf : getFrame s fid with _ | f
      · rw [hf] at h
        simp at h
      · simp only [hf, optCase_some] at h
        by_cases hx : (assocGet f.bindings x).isSome = true
        · rw [if_pos hx] at h
          injection h with h1
          rw [← h1]
          exact Nearest.here fid f hf hx
        · rw [if_neg hx] at h
          rcases hp : f.parent with _ | p
          · rw [hp] at h
            simp at h
          · simp only [hp, optCase_some] at h
            exact Nearest.up fid p tf f hf (by
              simp only [Bool.not_eq_true] at hx
              exact hx) hp (ih p tf h)

theorem findFrame_nearest (s : State) (x : String) (fid tf : Nat)
    (h : findFrame s fid x = some tf) : Nearest s x fid tf :=
  findFrameAux_nearest s x s.frames.length fid tf h

/-- Frame well-formedness: a parent index precedes its child.  True of
every reachable state, because `new Frame(parent)` appends after its
parent. -/
def frameWf (i : Nat) (f : Frame) : Bool :=
  optCase f.parent (fun p => decide (p < i)) true

def framesWfFrom : Nat → List Frame → Bool
  | _, [] => true
  | i, f :: rest => frameWf i f && framesWfFrom (i + 1) rest

def wfState (s : State) : Bool := framesWfFrom 0 s.frames

theorem getSome_lt {α : Type} : ∀ (l : List α) (i : Nat) (a : α),
    l[i]? = some a → i < l.length := by
  intro l
  induction l with
  | nil => intro i a h; simp at h
  | cons hd tl ih =>
      intro i a h
      cases i with
      | zero => simp
      | succ j =>
          simp only [List.getElem?_cons_succ] at h
          have := ih j a h
          simp
          omega

theorem framesWfFrom_get : ∀ (l : List Frame) (n i : Nat) (f : Frame),
    framesWfFrom n l = true → l[i]? = some f → frameWf (n + i) f = true := by
  intro l
  induction l with
  | nil => intro n i f hw h; simp at h
  | cons hd tl ih =>
      intro n i f hw h
      rw [framesWfFrom] at hw
      rcases (Bool.and_eq_true _ _).mp hw with ⟨hw1, hw2⟩
      cases i with
      | zero =>
          simp at h
          rw [← h]
          simpa using hw1
      | succ j =>
          simp only [List.getElem?_cons_succ] at h
          have := ih (n + 1) j f hw2 h
          have harith : n + 1 + j = n + (j + 1) := by omega
          rw [harith] at this
          exact this

theorem wfState_parent_lt (s : State) (hw : wfState s = true) (i : Nat)
    (f : Frame) (hf : getFrame s i = some f) (p : Nat)
    (hp : f.parent = some p) : p < i := by
  have h := framesWfFrom_get s.frames 0 i f hw hf
  rw [Nat.zero_add] at h
  rw [frameWf, hp, optCase_some] at h
  exact of_decide_eq_true h

/-- Completeness of the walk on well-formed states: the nearest holder
is found whenever the fuel exceeds the start index (so in particular
with `findFrame`'s fuel of `frames.length`). -/
theorem nearest_findFrameAux (s : State) (x : String)
    (hw : wfState s = true) :
    ∀ (fid tf : Nat), Nearest s x fid tf →
      ∀ (fuel : Nat), fid < fuel → findFrameAux s fuel fid x = some tf := by
  intro fid tf h
  induction h with
  | here fid f hf hx =>
      intro fuel hlt
      cases fuel with
      | zero => omega
      | succ n =>
          rw [findFrameAux]
          simp only [hf, optCase_some]
          rw [if_pos hx]
  | up fid p tf f hf hx hp hn ih =>
      intro fuel hlt
      cases fuel with
      | zero => omega
      | succ n =>
          rw [findFrameAux]
          simp only [hf, optCase_some]
          rw [if_neg (by simp [hx])]
          simp only [hp, optCase_some]
          exact ih n (by
            have := wfState_parent_lt s hw fid f hf p hp
            omega)

theorem nearest_findFrame (s : State) (x : String) (hw : wfState s = true)
    (fid tf : Nat) (h : Nearest s x fid tf) : findFrame s fid x = some tf := by
  rcases h with ⟨fid, f, hf, hx⟩ | ⟨fid, p, tf, f, hf, hx, hp, hn⟩
  · exact nearest_findFrameAux s x hw fid fid (.here fid f hf hx)
      s.frames.length (getSome_lt s.frames fid f hf)
  · exact nearest_findFrameAux s x hw fid tf (.up fid p tf f hf hx hp hn)
      s.frames.length (getSome_lt s.frames fid f hf)

/-!
## Lexer (lexer.ts) and reader (parser.ts)

The token set of lexer.ts: Number, String, Boolean, Identifier,
LeftParen, RightParen, Quote, Dot, EOF.  The character stream becomes a
`List Char`; `parseFloat` becomes exact rational reading (the host
rounds to the nearest double; no claim here depends on rounding).
-/

inductive Token : Type where
  | number (value : ℚ)
  | string (value : String)
  | boolean (value : Bool)
  | identifier (value : String)
  | leftParen
  | rightParen
  | quote
  | dot
  | eof
  deriving DecidableEq, Repr

/-- Identifier continuation characters: `/[a-zA-Z0-9_+\-*\/<>=?]/`. -/
def isIdentChar (c : Char) : Bool :=
  c.isAlpha || c.isDigit || c = '_' || c = '+' || c = '-' || c = '*' ||
    c = '/' || c = '<' || c = '>' || c = '=' || c = '?'

/-- Identifier start characters: `/[a-zA-Z_+\-*\/<>=?]/` (no digits). -/
def isIdentStart (c : Char) : Bool :=
  c.isAlpha || c = '_' || c = '+' || c = '-' || c = '*' ||
    c = '/' || c = '<' || c = '>' || c = '=' || c = '?'

/-- The comment skip of `skipWhitespace`: advance until the current
character is a newline (which the outer loop then consumes as
whitespace) or the input ends. -/
def dropToNewline : List Char → List Char
  | [] => []
  | c :: rest => if c = '\n' then c :: rest else dropToNewline rest

/-- `Lexer.skipWhitespace`: whitespace and `;`-to-end-of-line comments.
The fuel (instantiated with the input length plus one) bounds the loop,
which consumes at least one character per iteration. -/
def skipWs : Nat → List Char → List Char
  | 0, cs => cs
  | _ + 1, [] => []
  | fuel + 1, c :: rest =>
      if c.isWhitespace then skipWs fuel rest
      else if c = ';' then skipWs fuel (dropToNewline rest)
      else c :: rest

/-- `Lexer.readNumber`: consume `[0-9.]`, rejecting a second decimal
point with the host's error message (`acc` is the numeral consumed so
far, including any prefix). -/
def readNumberChars (acc : String) (hasDec : Bool) :
    List Char → Except SchemeError (String × List Char)
  | [] => .ok (acc, [])
  | c :: rest =>
      if c.isDigit then readNumberChars (acc.push c) hasDec rest
      else if c = '.' then
        if hasDec then
          .error (.err ("Invalid number: \"" ++ acc ++
            ".\" - unexpected second decimal point"))
        else readNumberChars (acc.push c) true rest
      else .ok (acc, c :: rest)

def digitsToNat (ds : List Char) : Nat :=
  ds.foldl (fun a c => a * 10 + (c.toNat - 48)) 0

/-- Exact-rational `parseFloat` of a numeral of the form consumed by
`readNumberChars` (digits with at most one dot). -/
def parseFloatQ (s : String) : ℚ :=
  let cs := s.data
  let ip := cs.takeWhile (fun c => !(c = '.'))
  let fp := (cs.dropWhile (fun c => !(c = '.'))).drop 1
  (digitsToNat ip : ℚ) + (digitsToNat fp : ℚ) / (10 : ℚ) ^ fp.length

/-- `Lexer.readIdentifier`: consume identifier characters. -/
def readIdentifierTok (cs : List Char) : Token × List Char :=
  (Token.identifier (String.mk (cs.takeWhile isIdentChar)),
    cs.dropWhile isIdentChar)

/-- String escape dispatch of `Lexer.readString`. -/
def escapeChar : Char → Except SchemeError Char
  | 'n' => .ok '\n'
  | 't' => .ok '\t'
  | 'r' => .ok '\r'
  | '\\' => .ok '\\'
  | '"' => .ok '"'
  | '0' => .ok (Char.ofNat 0)
  | 'b' => .ok (Char.ofNat 8)
  | 'f' => .ok (Char.ofNat 12)
  | 'v' => .ok (Char.ofNat 11)
  | c => .error (.err ("Unknown escape sequence: \\" ++ String.mk [c]))

/-- `Lexer.readString` after the opening quote has been consumed. -/
def readStringChars : List Char → Except SchemeError (String × List Char)
  | [] => .error (.err "Unterminated string literal")
  | c :: rest =>
      if c = '"' then .ok ("", rest)
      else if c = '\\' then
        match rest with
        | [] => .error (.err "Unexpected end of input in string escape sequence")
        | e :: rest2 =>
            exBind (escapeChar e) fun ec =>
              exBind (readStringChars rest2) fun r =>
                .ok (String.mk (ec :: r.1.data), r.2)
      else
        exBind (readStringChars rest) fun r =>
          .ok (String.mk (c :: r.1.data), r.2)

/-- `Lexer.readNextToken`: skip whitespace, then dispatch on the first
character.  Note the token set: there are no tokens for backquote,
comma, or comma-at; those characters fall through to the default branch
and raise `Unexpected character`. -/
def readNextToken (cs : List Char) : Except SchemeError (Token × List Char) :=
  let cs1 := skipWs (cs.length + 1) cs
  match cs1 with
  | [] => .ok (.eof, [])
  | c :: rest =>
      if c.isDigit then
        exBind (readNumberChars "" false (c :: rest)) fun r =>
          .ok (.number (parseFloatQ r.1), r.2)
      else if isIdentStart c then
        let r := readIdentifierTok (c :: rest)
        .ok (r.1, r.2)
      else if c = '(' then .ok (.leftParen, rest)
      else if c = ')' then .ok (.rightParen, rest)
      else if c = '.' then
        -- a decimal number like .5 when a digit follows
        match rest with
        | c2 :: _ =>
            if c2.isDigit then
              exBind (readNumberChars "." true rest) fun r =>
                .ok (.number (parseFloatQ r.1), r.2)
            else .ok (.dot, rest)
        | [] => .ok (.dot, rest)
      else if c = '\'' then .ok (.quote, rest)
      else if c = '"' then
        exBind (readStringChars rest) fun r => .ok (.string r.1, r.2)
      else if c = '#' then
        match rest with
        | 't' :: rest2 => .ok (.boolean true, rest2)
        | 'f' :: rest2 => .ok (.boolean false, rest2)
        | c2 :: _ =>
            .error (.err ("Unexpected character after #: " ++ String.mk [c2]))
        | [] => .error (.err ("Unexpected character after #: null"))
      else .error (.err ("Unexpected character: " ++ String.mk [c]))

/-- Tokenize a whole input, ending with the EOF token. -/
def tokenizeAll : Nat → List Char → Except SchemeError (List Token)
  | 0, _ => .error .outOfGas
  | fuel + 1, cs =>
      exBind (readNextToken cs) fun r =>
        if r.1 = .eof then .ok [.eof]
        else
          exBind (tokenizeAll fuel r.2) fun ts => .ok (r.1 :: ts)

def tokenize (s : String) : Except SchemeError (List Token) :=
  tokenizeAll (s.length + 1) s.data

/-!
Reader, `SchemeParser` of parser.ts.  The only reader abbreviation in
the source is `'x` (`TokenType.Quote`), producing `(quote x)`.
-/

mutual

def parseSexp : Nat → List Token → Except SchemeError (Value × List Token)
  | 0, _ => .error .outOfGas
  | fuel + 1, ts =>
      match ts with
      | [] => .error (.err "Unexpected token: EOF")
      | t :: rest =>
          match t with
          | .number v => .ok (.num v, rest)
          | .string v => .ok (.str v, rest)
          | .boolean v => .ok (.bool v, rest)
          | .identifier v => .ok (.sym v, rest)
          | .leftParen => parseList fuel rest
          | .quote =>
              exBind (parseSexp fuel rest) fun r =>
                .ok (.pair (.sym "quote") (.pair r.1 .nil), r.2)
          | .rightParen => .error (.err "Unexpected token: RightParen")
          | .dot => .error (.err "Unexpected token: Dot")
          | .eof => .error (.err "Unexpected token: EOF")

def parseList : Nat → List Token → Except SchemeError (Value × List Token)
  | 0, _ => .error .outOfGas
  | fuel + 1, ts =>
      match ts with
      | .rightParen :: rest => .ok (.nil, rest)
      | _ =>
          exBind (parseSexp fuel ts) fun car =>
            exBind (parseListTail fuel car.2) fun cdr =>
              .ok (.pair car.1 cdr.1, cdr.2)

def parseListTail : Nat → List Token → Except SchemeError (Value × List Token)
  | 0, _ => .error .outOfGas
  | fuel + 1, ts =>
      match ts with
      | .rightParen :: rest => .ok (.nil, rest)
      | .dot :: rest =>
          exBind (parseSexp fuel rest) fun cdr =>
            match cdr.2 with
            | .rightParen :: rest2 => .ok (cdr.1, rest2)
            | _ => .error (.err "Expected close paren after dotted pair")
      | _ =>
          exBind (parseSexp fuel ts) fun car =>
            exBind (parseListTail fuel car.2) fun cdr =>
              .ok (.pair car.1 cdr.1, cdr.2)

end

/-- Read one s-expression from source text (lexer plus reader). -/
def readOne (s : String) : Except SchemeError Value :=
  exBind (tokenize s) fun ts =>
    exBind (parseSexp (ts.length + 1) ts) fun r => .ok r.1

/-!
## Claim C6: reader abbreviations

The spec and the repository's own evaluator tests (and lib.scm, loaded
at startup) use the abbreviations `` `x ``, `,x`, `,@x`; the lexer's
token set has no backquote/comma/comma-at tokens, so those characters
hit the default branch of `readNextToken` and lexing fails.  Only `'x`
is supported.
-/

/-- C6 evidence.  `'x` reads as `(quote x)`, but `` ` `` and `,` are
rejected by the lexer with `Unexpected character` — on the exact input
of the repository's own test "quasiquote without unquote" — so the
reader does not accept `` `x ``, `,x`, `,@x` and produces no
quasiquote/unquote forms for them. -/
theorem c6_reader_tokens :
    readOne "'x" = .ok (Value.pair (.sym "quote") (.pair (.sym "x") .nil)) ∧
      tokenize "`(a b c)" = .error (.err "Unexpected character: `") ∧
      tokenize ",x" = .error (.err "Unexpected character: ,") ∧
      tokenize ",@xs" = .error (.err "Unexpected character: ,") :=
  ⟨rfl, rfl, rfl, rfl⟩

/-!
## Numeric core of the builtins (builtins.ts `initEnv`)

JavaScript `%` on finite doubles is the exact truncated remainder
`a - b * trunc(a / b)` (fmod is exact); on rationals this is
`jsRemCore`.  `modulo` is implemented as `((a % b) + b) % b`.  A zero
divisor yields NaN in the host, modelled as a `jsError` at the builtin
dispatch.
-/

/-- Truncation toward zero (the `trunc` implicit in the host `%`). -/
def ratTrunc (q : ℚ) : ℚ := if q < 0 then (⌈q⌉ : ℤ) else (⌊q⌋ : ℤ)

/-- The exact value of the host `a % b` for `b ≠ 0`. -/
def jsRemCore (a b : ℚ) : ℚ := a - b * ratTrunc (a / b)

/-- The exact value of the host `((a % b) + b) % b` for `b ≠ 0`. -/
def jsModCore (a b : ℚ) : ℚ := jsRemCore (jsRemCore a b + b) b

theorem ratTrunc_neg (q : ℚ) : ratTrunc (-q) = -ratTrunc q := by
  rw [ratTrunc, ratTrunc]
  rcases lt_trichotomy q 0 with h | h | h
  · rw [if_neg (by push_neg; linarith), if_pos h, Int.floor_neg]
    push_cast
    ring
  · rw [h]
    norm_num
  · rw [if_pos (by linarith), if_neg (by push_neg; linarith), Int.ceil_neg]
    push_cast
    ring

theorem jsRemCore_neg_left (a b : ℚ) : jsRemCore (-a) b = -jsRemCore a b := by
  rw [jsRemCore, jsRemCore, neg_div, ratTrunc_neg]
  ring

theorem jsRemCore_neg_right (a b : ℚ) : jsRemCore a (-b) = jsRemCore a b := by
  rw [jsRemCore, jsRemCore, div_neg, ratTrunc_neg]
  ring

/-- For `0 ≤ a` and `b ≠ 0` the truncated remainder is nonnegative. -/
theorem jsRemCore_nonneg (a b : ℚ) (ha : 0 ≤ a) (hb : b ≠ 0) :
    0 ≤ jsRemCore a b := by
  rw [jsRemCore]
  rcases lt_or_gt_of_ne hb with hbn | hbp
  · -- negative divisor: a / b ≤ 0, truncation is the ceiling (or zero)
    rcases eq_or_lt_of_le ha with ha0 | hap
    · rw [ratTrunc, ← ha0]
      norm_num
    · have hq : a / b < 0 := div_neg_of_pos_of_neg hap hbn
      rw [ratTrunc, if_pos hq]
      have hc : a / b ≤ (⌈a / b⌉ : ℚ) := Int.le_ceil _
      have : b * (⌈a / b⌉ : ℚ) ≤ b * (a / b) := by
        exact mul_le_mul_of_nonpos_left hc (le_of_lt hbn)
      rw [mul_div_cancel₀ a hb] at this
      linarith
  · -- positive divisor: a / b ≥ 0, truncation is the floor
    have hq : 0 ≤ a / b := div_nonneg ha (le_of_lt hbp)
    rw [ratTrunc, if_neg (by push_neg; exact hq)]
    have hf : (⌊a / b⌋ : ℚ) ≤ a / b := Int.floor_le _
    have : b * (⌊a / b⌋ : ℚ) ≤ b * (a / b) :=
      mul_le_mul_of_nonneg_left hf (le_of_lt hbp)
    rw [mul_div_cancel₀ a hb] at this
    linarith

theorem jsRemCore_nonpos (a b : ℚ) (ha : a ≤ 0) (hb : b ≠ 0) :
    jsRemCore a b ≤ 0 := by
  have := jsRemCore_nonneg (-a) b (by linarith) hb
  rw [jsRemCore_neg_left] at this
  linarith

/-- The truncated remainder is strictly smaller than the divisor in
absolute value. -/
theorem jsRemCore_abs_lt (a b : ℚ) (hb : b ≠ 0) :
    |jsRemCore a b| < |b| := by
  -- reduce to 0 ≤ a, 0 < b by the sign symmetries
  have core : ∀ (x y : ℚ), 0 ≤ x → 0 < y → |jsRemCore x y| < |y| := by
    intro x y hx hy
    have hq : 0 ≤ x / y := div_nonneg hx (le_of_lt hy)
    have hrw : jsRemCore x y = y * Int.fract (x / y) := by
      rw [jsRemCore, ratTrunc, if_neg (by push_neg; exact hq), Int.fract]
      field_simp
    rw [hrw, abs_of_pos hy]
    rw [abs_of_nonneg (mul_nonneg (le_of_lt hy) (Int.fract_nonneg _))]
    have h1 : Int.fract (x / y) < 1 := Int.fract_lt_one _
    calc y * Int.fract (x / y) < y * 1 := by
          exact mul_lt_mul_of_pos_left h1 hy
      _ = y := by ring
  rcases le_or_lt 0 a with ha | ha
  · rcases lt_or_gt_of_ne hb with hbn | hbp
    · have := core a (-b) ha (by linarith)
      rw [jsRemCore_neg_right, abs_neg] at this
      exact this
    · exact core a b ha hbp
  · rcases lt_or_gt_of_ne hb with hbn | hbp
    · have := core (-a) (-b) (by linarith) (by linarith)
      rw [jsRemCore_neg_right, jsRemCore_neg_left, abs_neg, abs_neg] at this
      exact this
    · have := core (-a) b (by linarith) hbp
      rw [jsRemCore_neg_left, abs_neg] at this
      exact this

/-- `modulo` with a positive divisor is nonnegative. -/
theorem jsModCore_nonneg (a b : ℚ) (hb : 0 < b) : 0 ≤ jsModCore a b := by
  rw [jsModCore]
  have habs := jsRemCore_abs_lt a b (ne_of_gt hb)
  rw [abs_of_pos hb] at habs
  have : 0 ≤ jsRemCore a b + b := by
    rcases abs_lt.mp habs with ⟨h1, _⟩
    linarith
  exact jsRemCore_nonneg _ b this (ne_of_gt hb)

/-- `modulo` with a negative divisor is nonpositive. -/
theorem jsModCore_nonpos (a b : ℚ) (hb : b < 0) : jsModCore a b ≤ 0 := by
  rw [jsModCore]
  have habs := jsRemCore_abs_lt a b (ne_of_lt hb)
  rw [abs_of_neg hb] at habs
  have : jsRemCore a b + b ≤ 0 := by
    rcases abs_lt.mp habs with ⟨_, h2⟩
    linarith
  exact jsRemCore_nonpos _ b this (ne_of_lt hb)

/-!
## Builtin procedures (builtins.ts `initEnv`)

Each builtin receives the evaluated argument vector.  `apply` is not
here: its implementation calls back into closure evaluation, so it is
dispatched inside the evaluator (`applyBuiltinE`).  Representation
notes, flagged where the host differs:

* casts `(x as number)` on a non-number produce NaN in the host;
  modelled as `jsError` (no claim exercises this corner);
* `/` by zero produces Infinity/NaN; modelled as `jsError`;
* `sqrt` is the host's double approximation; modelled by `Rat.sqrt`;
* `eq?`/`eqv?` use host reference equality on heap objects (pairs,
  closures, builtins); the embedding has no object identity and
  under-approximates those comparisons as `false`;
* `log` writes to the console and returns `true`; the text is dropped.
-/

def asNum : Value → Except SchemeError ℚ
  | .num q => .ok q
  | _ => .error (.jsError "arithmetic cast of a non-number yields NaN")

def asNums : List Value → Except SchemeError (List ℚ)
  | [] => .ok []
  | v :: rest =>
      exBind (asNum v) fun q => exBind (asNums rest) fun qs => .ok (q :: qs)

/-- Chained division `args.slice(1).reduce((acc, v) => acc / v, args[0])`,
guarding each host division that would produce Infinity/NaN. -/
def divFold (a : ℚ) : List ℚ → Except SchemeError Value
  | [] => .ok (.num a)
  | q :: rest =>
      if q = 0 then .error (.jsError "division by zero yields Infinity or NaN")
      else divFold (a / q) rest

/-- Host `===` together with the symbol-by-name special case used by
`eq?`/`eqv?`.  Heap objects compare by reference in the host; see the
section comment. -/
def schemeEq : Value → Value → Bool
  | .num x, .num y => decide (x = y)
  | .str x, .str y => decide (x = y)
  | .bool x, .bool y => decide (x = y)
  | .nil, .nil => true
  | .undef, .undef => true
  | .sym x, .sym y => decide (x = y)
  | _, _ => false

def eqChain : Value → List Value → Bool
  | _, [] => true
  | prev, v :: rest => schemeEq prev v && eqChain v rest

/-- Host `<` under the `as number` casts: numbers compare numerically;
two strings compare lexicographically; other combinations coerce in
host-specific ways (modelled as `jsError`; no builtin-table claim
exercises them). -/
def jsLess : Value → Value → Except SchemeError Bool
  | .num x, .num y => .ok (decide (x < y))
  | .str x, .str y => .ok (decide (x < y))
  | _, _ => .error (.jsError "relational comparison on non-numbers")

def ltChain : Value → List Value → Except SchemeError Bool
  | _, [] => .ok true
  | prev, v :: rest =>
      exBind (jsLess prev v) fun b =>
        if b then ltChain v rest else .ok false

def gtChain : Value → List Value → Except SchemeError Bool
  | _, [] => .ok true
  | prev, v :: rest =>
      exBind (jsLess v prev) fun b =>
        if b then gtChain v rest else .ok false

def applyBuiltin (name : String) (args : List Value) :
    Except SchemeError Value :=
  match name with
  | "+" =>
      exBind (asNums args) fun qs => .ok (.num (qs.foldl (· + ·) 0))
  | "-" =>
      match args with
      -- no args: [].reduce(f, undefined) = undefined;
      -- one arg: reduce over an empty slice returns args[0]
      | [] => .ok Value.undef
      | [v] => .ok v
      | v :: rest =>
          exBind (asNum v) fun a =>
            exBind (asNums rest) fun qs => .ok (.num (qs.foldl (· - ·) a))
  | "*" =>
      exBind (asNums args) fun qs => .ok (.num (qs.foldl (· * ·) 1))
  | "/" =>
      match args with
      | [] => .ok .undef
      | [v] => .ok v
      | v :: rest =>
          exBind (asNum v) fun a => exBind (asNums rest) (divFold a)
  | "abs" =>
      match args with
      | [v] => exBind (asNum v) fun q => .ok (.num |q|)
      | _ => .error (.err "abs: Expected one argument.")
  | "sqrt" =>
      match args with
      | [v] => exBind (asNum v) fun q => .ok (.num (Rat.sqrt q))
      | _ => .error (.err "sqrt: Expected one argument.")
  | "remainder" =>
      match args with
      | [x, y] =>
          exBind (asNum x) fun a =>
            exBind (asNum y) fun b =>
              if b = 0 then .error (.jsError "remainder by zero yields NaN")
              else .ok (.num (jsRemCore a b))
      | _ => .error (.err "remainder: Expected two arguments.")
  | "modulo" =>
      match args with
      | [x, y] =>
          exBind (asNum x) fun a =>
            exBind (asNum y) fun b =>
              if b = 0 then .error (.jsError "modulo by zero yields NaN")
              else .ok (.num (jsModCore a b))
      | _ => .error (.err "modulo: Expected two arguments.")
  | "floor" =>
      match args with
      | [v] => exBind (asNum v) fun q => .ok (.num (⌊q⌋ : ℤ))
      | _ => .error (.err "floor: Expected one argument.")
  | "ceiling" =>
      match args with
      | [v] => exBind (asNum v) fun q => .ok (.num (⌈q⌉ : ℤ))
      | _ => .error (.err "ceiling: Expected one argument.")
  | "truncate" =>
      match args with
      | [v] => exBind (asNum v) fun q => .ok (.num (ratTrunc q))
      | _ => .error (.err "truncate: Expected one argument.")
  | "round" =>
      match args with
      | [v] => exBind (asNum v) fun q => .ok (.num (⌊q + 1/2⌋ : ℤ))
      | _ => .error (.err "round: Expected one argument.")
  | "cons" =>
      match args with
      | [x, y] => .ok (.pair x y)
      | _ => .error (.err "cons: Expected two arguments.")
  | "car" =>
      match args with
      | [.pair a _] => .ok a
      | [_] => .error (.err "car: Expected a cons cell.")
      | _ => .error (.err "car: Expected one argument.")
  | "cdr" =>
      match args with
      | [.pair _ d] => .ok d
      | [_] => .error (.err "cdr: Expected a cons cell.")
      | _ => .error (.err "cdr: Expected one argument.")
  | "log" => .ok (.bool true)
  | "eq?" =>
      match args with
      | a :: b :: rest => .ok (.bool (eqChain a (b :: rest)))
      | _ => .error (.err "eq?: Expected at least two arguments.")
  | "eqv?" =>
      match args with
      | a :: b :: rest => .ok (.bool (eqChain a (b :: rest)))
      | _ => .error (.err "eqv?: Expected at least two arguments.")
  | "<" =>
      match args with
      | a :: b :: rest =>
          exBind (ltChain a (b :: rest)) fun r => .ok (.bool r)
      | _ => .error (.err "<: Expected at least two arguments.")
  | ">" =>
      match args with
      | a :: b :: rest =>
          exBind (gtChain a (b :: rest)) fun r => .ok (.bool r)
      | _ => .error (.err ">: Expected at least two arguments.")
  | "null?" =>
      match args with
      | [v] => .ok (.bool (v = Value.nil))
      | _ => .error (.err "null?: Expected one argument.")
  | "pair?" =>
      match args with
      | [v] => .ok (.bool v.isPair)
      | _ => .error (.err "null?: Expected one argument.")  -- message as in source
  | "list?" =>
      match args with
      | [v] => .ok (.bool v.isPair)   -- the source tests SCons only
      | _ => .error (.err "list?: Expected one argument.")
  | "symbol?" =>
      match args with
      | [v] =>
          .ok (.bool (match v with | .sym _ => true | _ => false))
      | _ => .error (.err "symbol?: Expected one argument.")
  | "procedure?" =>
      match args with
      | [v] =>
          .ok (.bool (match v with
            | .closure _ _ _ _ => true
            | .builtin _ => true
            | _ => false))
      | _ => .error (.err "procedure?: Expected one argument.")
  | _ => .error (.jsError ("unknown builtin: " ++ name))

/-!
## Claim C8: signs of `remainder` and `modulo`
-/

/-- C8.  For all numbers `a` and nonzero `b`: the `remainder` builtin
computes the truncated remainder, whose sign is compatible with the
dividend `a` (nonnegative dividends give nonnegative remainders,
nonpositive give nonpositive — a zero result, e.g. `(remainder 4 2)`,
carries no sign); the `modulo` builtin computes `((a % b) + b) % b`,
whose sign is compatible with the divisor `b`. -/
theorem c8_modulo_remainder_signs (a b : ℚ) (hb : b ≠ 0) :
    applyBuiltin "remainder" [.num a, .num b] = .ok (.num (jsRemCore a b)) ∧
      applyBuiltin "modulo" [.num a, .num b] = .ok (.num (jsModCore a b)) ∧
      (0 ≤ a → 0 ≤ jsRemCore a b) ∧ (a ≤ 0 → jsRemCore a b ≤ 0) ∧
      (0 < b → 0 ≤ jsModCore a b) ∧ (b < 0 → jsModCore a b ≤ 0) := by
  refine ⟨?_, ?_, ?_, ?_, ?_, ?_⟩
  · rw [applyBuiltin]
    simp only [asNum, exBind_ok]
    rw [if_neg hb]
  · rw [applyBuiltin]
    simp only [asNum, exBind_ok]
    rw [if_neg hb]
  · intro ha
    exact jsRemCore_nonneg a b ha hb
  · intro ha
    exact jsRemCore_nonpos a b ha hb
  · intro hbp
    exact jsModCore_nonneg a b hbp
  · intro hbn
    exact jsModCore_nonpos a b hbn

/-- Witness for C8 at `a = -7`, `b = 3`: `remainder` gives `-1` (sign
of the dividend), `modulo` gives `2` (sign of the divisor). -/
theorem c8_modulo_remainder_signs_witness :
    applyBuiltin "remainder" [.num (-7), .num 3] = .ok (.num (-1)) ∧
      applyBuiltin "modulo" [.num (-7), .num 3] = .ok (.num 2) := by
  have h := c8_modulo_remainder_signs (-7) 3 (by norm_num)
  have hceil : ((⌈(-7 : ℚ) / 3⌉ : ℤ)) = -2 := by
    rw [Int.ceil_eq_iff]
    constructor <;> norm_num
  have hrem : jsRemCore (-7) 3 = -1 := by
    rw [jsRemCore, ratTrunc, if_pos (by norm_num), hceil]
    norm_num
  have hfloor : ((⌊(2 : ℚ) / 3⌋ : ℤ)) = 0 := by
    rw [Int.floor_eq_iff]
    constructor <;> norm_num
  have hmod : jsModCore (-7) 3 = 2 := by
    rw [jsModCore, hrem]
    norm_num
    rw [jsRemCore, ratTrunc, if_neg (by norm_num), hfloor]
    norm_num
  rw [h.1, h.2.1, hrem, hmod]
  exact ⟨rfl, rfl⟩

/-!
## Trampoline and evaluator

`TrampolineResult` is the two-state type of types.ts.  A `pending`
carries the closure body and the activation frame index: `evalTail`
binds the arguments eagerly (`bindArgs`) and defers only
`this.expr(frame)`, so the deferred thunk is exactly "run this body in
this frame".

`eval` fuses `SchemeAnalyzer.analyze` (analyzer.ts, the form dispatch
of lines 141-182 in source order) with running the compiled closure on
a frame.  Two consequences of the fusion, both flagged inline: errors
the analyzer raises at analysis time (`safeId`/`safeCar` failures,
crashes on bad casts) surface at evaluation time here, and a lambda's
body is checked when the closure is invoked rather than when the
`lambda` form is compiled.

Resource parameters: `gas` decreases at every nested call and makes
the interpreter total (`outOfGas` is an artifact of the embedding, not
a host behaviour); `depth` models the host call stack: every dispatch
into a sub-expression passes `depth - 1` and a zero budget raises
`stackOverflow`, while the iterative loops of the host (the trampoline
driver in `force`, the body/operand/form loops) keep `depth`
unchanged, which is what makes tail calls stack-safe.
-/

inductive TrampolineResult : Type where
  | done (value : Value)
  | pending (body : Value) (frameId : Nat)
  deriving DecidableEq, Repr

/-- `safeId` of analyzer.ts (the name string of an identifier). -/
def symName : Value → Except SchemeError String
  | .sym s => .ok s
  | _ => .error (.err "id: Expected identifier.")

/-- `safeCar` of analyzer.ts. -/
def safeCarE : Value → Except SchemeError Value
  | .pair a _ => .ok a
  | _ => .error (.err "car: Expected cons.")

/-- `safeCdr` of analyzer.ts. -/
def safeCdrE : Value → Except SchemeError Value
  | .pair _ d => .ok d
  | _ => .error (.err "cdr: Expected cons.")

/-- `getLambdaArgs`: walk `(a1 a2 … [. rest])` collecting fixed
parameter names and an optional rest name. -/
def getLambdaArgs : Value → Except SchemeError (List String × Option String)
  | .nil => .ok ([], none)
  | .pair a d =>
      exBind (symName a) fun nm =>
        exBind (getLambdaArgs d) fun pr => .ok (nm :: pr.1, pr.2)
  | v => exBind (symName v) fun nm => .ok ([], some nm)

/-- Split a nonempty argument tail into the intermediate arguments and
the final one (`args.slice(1, -1)` and `args[args.length - 1]` of the
`apply` builtin). -/
def splitLastAux (x : Value) : List Value → List Value × Value
  | [] => ([], x)
  | y :: ys =>
      let r := splitLastAux y ys
      (x :: r.1, r.2)

mutual

def eval : Nat → Nat → Value → Nat → Bool → State →
    Except SchemeError (TrampolineResult × State)
  | 0, _, _, _, _, _ => .error .outOfGas
  | gas + 1, depth, sexp, fid, tail, s =>
    if depth = 0 then .error .stackOverflow else
    match sexp with
    | .sym id =>
        -- variable reference: findFrame, throw when absent, else lookup
        optCase (findFrame s fid id)
          (fun _ =>
            .ok (.done (optCase (lookupVar s fid id) (fun v => v) .undef), s))
          (.error (.err ("Unbound variable: " ++ id)))
    | .num q => .ok (.done (.num q), s)
    | .str st => .ok (.done (.str st), s)
    | .bool b => .ok (.done (.bool b), s)
    | .nil => .ok (.done .nil, s)
    | .pair car cdr =>
        -- the form dispatch of analyze: `carIsId` requires a SchemeId head
        (match car with
         | .sym hd => evalSymForm gas depth hd cdr fid tail s
         | _ => evalAppForm gas depth car cdr fid tail s)
    | .builtin _ => .error (.err "Unexpected type: builtin")
    | .closure _ _ _ _ => .error (.err "Unexpected type: closure")
    | .undef => .error (.err "Unexpected type: undefined")
termination_by structural gas _ _ _ _ _ => gas

/-- The special-form dispatch of `analyze` for a pair whose head is a
`SchemeId` named `nm`, in source order (analyzer.ts lines 156-177);
any other head name is an application. -/
def evalSymForm : Nat → Nat → String → Value → Nat → Bool → State →
    Except SchemeError (TrampolineResult × State)
  | 0, _, _, _, _, _, _ => .error .outOfGas
  | gas + 1, depth, nm, cdr, fid, tail, s =>
    if nm = "quote" then
      -- const quoted = (sexp.cdr as SCons).car
      match cdr with
      | .pair q _ => .ok (.done q, s)
      | .nil => .error (.jsError "quote: reading car of null")
      | _ => .ok (.done .undef, s)  -- car of a non-object is undefined
    else if nm = "lambda" then
      match cdr with
      | .pair ps bodyV =>
          exBind (getLambdaArgs ps) fun pr =>
            .ok (.done (.closure pr.1 pr.2 bodyV fid), s)
      | _ => .error (.jsError "lambda: malformed form")
    else if nm = "define" then
      match cdr with
      | .pair defhead rest =>
          (match defhead with
           | .pair fname fparams =>
               -- (define (f a…) body…): build the lambda, bind, return the id
               exBind (symName fname) fun dn =>
                 exBind (getLambdaArgs fparams) fun pr =>
                   .ok (.done (Value.sym dn),
                     updateFrame s fid dn (.closure pr.1 pr.2 rest fid))
           | _ =>
               -- (define x e): evaluate e (tail = false), force, bind
               exBind (symName defhead) fun dn =>
                 exBind (safeCarE rest) fun vexpr =>
                   exBind (eval gas (depth - 1) vexpr fid false s) fun r1 =>
                     exBind (force gas (depth - 1) r1.1 r1.2) fun vr =>
                       .ok (.done (Value.sym dn),
                         updateFrame vr.2 fid dn vr.1))
      | .nil => .error (.jsError "define: reading car of null")
      | _ => .error (.err "id: Expected identifier.")
    else if nm = "set!" then
      match cdr with
      | .pair idE rest =>
          exBind (symName idE) fun dn =>
            exBind (safeCarE rest) fun vexpr =>
              -- find the owning frame first; then evaluate; then mutate
              optCase (findFrame s fid dn)
                (fun tf =>
                  exBind (eval gas (depth - 1) vexpr fid false s) fun r1 =>
                    exBind (force gas (depth - 1) r1.1 r1.2) fun vr =>
                      .ok (.done vr.1, updateFrame vr.2 tf dn vr.1))
                (.error (.err ("set!: Unbound variable: " ++ dn)))
      | .nil => .error (.jsError "set!: reading car of null")
      | _ => .error (.err "id: Expected identifier.")
    else if nm = "or" then
      match cdr with
      | .nil => .ok (.done (.bool false), s)
      | .pair a d => evalOrForms gas (depth - 1) (a :: consElems d) fid tail s
      | _ => .error (.jsError "or: spreading a non-iterable")
    else if nm = "and" then
      match cdr with
      | .nil => .ok (.done (.bool true), s)
      | .pair a d => evalAndForms gas (depth - 1) (a :: consElems d) fid tail s
      | _ => .error (.jsError "and: spreading a non-iterable")
    else if nm = "if" then
      match cdr with
      | .pair condE rest =>
          (match rest with
           | .pair conseqE altSexp =>
               exBind (eval gas (depth - 1) condE fid false s) fun r1 =>
                 exBind (force gas (depth - 1) r1.1 r1.2) fun cv =>
                   if cv.1 = Value.bool false then
                     match altSexp with
                     | .nil => .ok (.done (.bool false), cv.2)
                     | .pair _ _ => evalBody gas (depth - 1) altSexp fid tail cv.2
                     | _ => .error (.jsError "if: spreading a non-iterable body")
                   else eval gas (depth - 1) conseqE fid tail cv.2
           | _ => .error (.err "car: Expected cons."))
      | _ => .error (.jsError "if: reading car of a non-object")
    else if nm = "define-macro" then
      match cdr with
      | .pair mh rest =>
          exBind (safeCarE mh) fun fname =>
            exBind (symName fname) fun dn =>
              exBind (safeCdrE mh) fun fparams =>
                exBind (getLambdaArgs fparams) fun pr =>
                  .ok (.done (Value.sym dn),
                    setMacroEntry s dn (.closure pr.1 pr.2 rest fid))
      | .nil => .error (.jsError "define-macro: reading car of null")
      | _ => .error (.err "car: Expected cons.")
    else if nm = "quasiquote" then
      match cdr with
      | .pair q _ =>
          exBind (evalQuasi gas (depth - 1) q fid s) fun vr =>
            .ok (.done vr.1, vr.2)
      | .nil => .error (.jsError "quasiquote: reading car of null")
      | _ => .ok (.done .undef, s)  -- template is (atom).car = undefined
    else evalAppForm gas depth (.sym nm) cdr fid tail s
termination_by structural gas _ _ _ _ _ _ => gas

/-- `analyzeApplication` fused with its call-time protocol: evaluate
the operator (tail = false), force it, evaluate and force every
operand, then dispatch on the callee. -/
def evalAppForm : Nat → Nat → Value → Value → Nat → Bool → State →
    Except SchemeError (TrampolineResult × State)
  | 0, _, _, _, _, _, _ => .error .outOfGas
  | gas + 1, depth, car, cdr, fid, tail, s =>
      exBind (eval gas (depth - 1) car fid false s) fun r1 =>
        exBind (force gas (depth - 1) r1.1 r1.2) fun fv =>
          exBind (evalArgs gas (depth - 1) (consElems cdr) fid fv.2) fun av =>
            match fv.1 with
            | .builtin name =>
                exBind (applyBuiltinE gas (depth - 1) name av.1 av.2) fun bv =>
                  .ok (.done bv.1, bv.2)
            | .closure ps rp body env =>
                let pf := pushFrame av.2 (bindArgs ps rp av.1 env)
                if tail then
                  -- tail call: return the thunk for the trampoline
                  .ok (.pending body pf.1, pf.2)
                else
                  -- non-tail call: evaluate fully (local trampoline)
                  exBind (evalBody gas (depth - 1) body pf.1 true pf.2) fun r2 =>
                    exBind (force gas (depth - 1) r2.1 r2.2) fun vr =>
                      .ok (.done vr.1, vr.2)
            | _ => .error (.err "Not a function")
termination_by structural gas _ _ _ _ _ _ => gas

/-- `analyzeBody` fused with its runtime loop: all but the last
expression are forced and discarded (the loop is iterative, so `depth`
is unchanged across it); the last expression's result is returned
directly and may be a pending tail call. -/
def evalBody : Nat → Nat → Value → Nat → Bool → State →
    Except SchemeError (TrampolineResult × State)
  | 0, _, _, _, _, _ => .error .outOfGas
  | gas + 1, depth, body, fid, tail, s =>
    if depth = 0 then .error .stackOverflow else
    match body with
    | .pair e rest =>
        if rest.isPair then
          exBind (eval gas (depth - 1) e fid false s) fun r1 =>
            exBind (force gas (depth - 1) r1.1 r1.2) fun vr =>
              evalBody gas depth rest fid tail vr.2
        else eval gas (depth - 1) e fid tail s
    | _ => .error (.jsError "body: expected a nonempty expression list")
termination_by structural gas _ _ _ _ _ => gas

/-- Operand evaluation `operands.map(o => trampoline(o(frame)))`. -/
def evalArgs : Nat → Nat → List Value → Nat → State →
    Except SchemeError (List Value × State)
  | 0, _, _, _, _ => .error .outOfGas
  | gas + 1, depth, es, fid, s =>
    match es with
    | [] => .ok ([], s)
    | e :: rest =>
        exBind (eval gas (depth - 1) e fid false s) fun r1 =>
          exBind (force gas (depth - 1) r1.1 r1.2) fun vr =>
            exBind (evalArgs gas depth rest fid vr.2) fun ar =>
              .ok (vr.1 :: ar.1, ar.2)
termination_by structural gas _ _ _ _ => gas

/-- `analyzeOr` fused with its runtime loop: every form but the last is
forced and tested against `false`; the last form's result is returned
directly (and may be a pending tail call). -/
def evalOrForms : Nat → Nat → List Value → Nat → Bool → State →
    Except SchemeError (TrampolineResult × State)
  | 0, _, _, _, _, _ => .error .outOfGas
  | gas + 1, depth, forms, fid, tail, s =>
    match forms with
    | [] => .error (.jsError "or: empty form list")  -- callers pass ≥ 1 form
    | [e] => eval gas (depth - 1) e fid tail s
    | e :: rest =>
        exBind (eval gas (depth - 1) e fid false s) fun r1 =>
          exBind (force gas (depth - 1) r1.1 r1.2) fun vr =>
            if vr.1 = Value.bool false then
              evalOrForms gas depth rest fid tail vr.2
            else .ok (.done vr.1, vr.2)
termination_by structural gas _ _ _ _ _ => gas

/-- `analyzeAnd`, dually: a forced `false` short-circuits to `false`. -/
def evalAndForms : Nat → Nat → List Value → Nat → Bool → State →
    Except SchemeError (TrampolineResult × State)
  | 0, _, _, _, _, _ => .error .outOfGas
  | gas + 1, depth, forms, fid, tail, s =>
    match forms with
    | [] => .error (.jsError "and: empty form list")  -- callers pass ≥ 1 form
    | [e] => eval gas (depth - 1) e fid tail s
    | e :: rest =>
        exBind (eval gas (depth - 1) e fid false s) fun r1 =>
          exBind (force gas (depth - 1) r1.1 r1.2) fun vr =>
            if vr.1 = Value.bool false then .ok (.done (.bool false), vr.2)
            else evalAndForms gas depth rest fid tail vr.2
termination_by structural gas _ _ _ _ _ => gas

/-- `analyzeQuasiquote` fused with its runtime walk (the analysis-time
errors of malformed `unquote`/`unquote-splicing` forms surface during
the walk here). -/
def evalQuasi : Nat → Nat → Value → Nat → State →
    Except SchemeError (Value × State)
  | 0, _, _, _, _ => .error .outOfGas
  | gas + 1, depth, sexp, fid, s =>
    if depth = 0 then .error .stackOverflow else
    match sexp with
    | .pair c d =>
        if c = Value.sym "unquote" then
          -- (unquote e): evaluate e, not in tail position
          exBind (safeCarE d) fun inner =>
            exBind (eval gas (depth - 1) inner fid false s) fun r1 =>
              force gas (depth - 1) r1.1 r1.2
        else if c = Value.sym "unquote-splicing" then
          .error (.err "unquote-splicing: not valid at top level of quasiquote")
        else
          -- list template: walk the spine, splicing where marked, then
          -- build the cons list right to left onto the (quasiquoted) tail
          exBind (quasiSpine gas depth (.pair c d) fid s) fun r =>
            .ok (r.1.1.foldr Value.pair r.1.2, r.2)
    | v => .ok (v, s)  -- atoms are returned as-is
termination_by structural gas _ _ _ _ => gas

/-- The element walk of `analyzeQuasiquote`: produces the (already
spliced) elements of the spine and the evaluated tail of an improper
template. -/
def quasiSpine : Nat → Nat → Value → Nat → State →
    Except SchemeError ((List Value × Value) × State)
  | 0, _, _, _, _ => .error .outOfGas
  | gas + 1, depth, current, fid, s =>
    match current with
    | .pair elem rest =>
        (match elem with
         | .pair (.sym "unquote-splicing") ed =>
             exBind (safeCarE ed) fun inner =>
               exBind (eval gas (depth - 1) inner fid false s) fun r1 =>
                 exBind (force gas (depth - 1) r1.1 r1.2) fun vr =>
                   if vr.1 = Value.nil ∨ vr.1.isPair then
                     exBind (consToListJs vr.1) fun elems =>
                       exBind (quasiSpine gas depth rest fid vr.2) fun rr =>
                         .ok ((elems ++ rr.1.1, rr.1.2), rr.2)
                   else .error (.err "unquote-splicing: expected a list")
         | _ =>
             exBind (evalQuasi gas (depth - 1) elem fid s) fun vr =>
               exBind (quasiSpine gas depth rest fid vr.2) fun rr =>
                 .ok ((vr.1 :: rr.1.1, rr.1.2), rr.2))
    | .nil => .ok (([], Value.nil), s)
    | v =>
        -- dotted template: quasiquote the tail
        exBind (evalQuasi gas (depth - 1) v fid s) fun vr =>
          .ok (([], vr.1), vr.2)
termination_by structural gas _ _ _ _ => gas

/-- Builtin dispatch including `apply` (initEnv of builtins.ts), which
re-enters evaluation when its target is a closure (`func.eval`) or
another builtin. -/
def applyBuiltinE : Nat → Nat → String → List Value → State →
    Except SchemeError (Value × State)
  | 0, _, _, _, _ => .error .outOfGas
  | gas + 1, depth, name, args, s =>
    if name = "apply" then
      match args with
      | func :: a1 :: rest =>
          let il := splitLastAux a1 rest
          if il.2 = Value.nil ∨ il.2.isPair then
            exBind (consToListJs il.2) fun spread =>
              (match func with
               | .builtin n2 => applyBuiltinE gas (depth - 1) n2 (il.1 ++ spread) s
               | .closure ps rp body env =>
                   let pf := pushFrame s (bindArgs ps rp (il.1 ++ spread) env)
                   exBind (evalBody gas (depth - 1) body pf.1 true pf.2) fun r2 =>
                     force gas (depth - 1) r2.1 r2.2
               | _ => .error (.err "apply: First argument must be a function."))
          else .error (.err "apply: Last argument must be a list.")
      | _ => .error (.err "apply: Expected at least two arguments.")
    else
      exBind (applyBuiltin name args) fun v => .ok (v, s)
termination_by structural gas _ _ _ _ => gas

/-- The trampoline driver of types.ts: force `pending` until `done`.
The driver is a host `while` loop, so re-entering it does not grow the
stack: the recursive `force` keeps `depth` unchanged, and only the
thunk invocation (`evalBody`) descends. -/
def force : Nat → Nat → TrampolineResult → State →
    Except SchemeError (Value × State)
  | _, _, .done v, s => .ok (v, s)
  | 0, _, .pending _ _, _ => .error .outOfGas
  | gas + 1, depth, .pending body fid2, s =>
      exBind (evalBody gas (depth - 1) body fid2 true s) fun r =>
        force gas depth r.1 r.2
termination_by structural gas _ _ _ => gas

end

/-- The global frame built by `initEnv` of builtins.ts. -/
def initEnv : Frame :=
  { bindings := [
      ("+", .builtin "+"), ("-", .builtin "-"), ("*", .builtin "*"),
      ("/", .builtin "/"), ("abs", .builtin "abs"), ("sqrt", .builtin "sqrt"),
      ("remainder", .builtin "remainder"), ("modulo", .builtin "modulo"),
      ("floor", .builtin "floor"), ("ceiling", .builtin "ceiling"),
      ("truncate", .builtin "truncate"), ("round", .builtin "round"),
      ("cons", .builtin "cons"), ("car", .builtin "car"),
      ("cdr", .builtin "cdr"), ("log", .builtin "log"),
      ("eq?", .builtin "eq?"), ("eqv?", .builtin "eqv?"),
      ("<", .builtin "<"), (">", .builtin ">"),
      ("null?", .builtin "null?"), ("pair?", .builtin "pair?"),
      ("list?", .builtin "list?"), ("symbol?", .builtin "symbol?"),
      ("procedure?", .builtin "procedure?"), ("apply", .builtin "apply")],
    parent := none }

def initState : State := { frames := [initEnv], macros := [] }

/-- `SchemeAnalyzer.analyzeSexp`, the public entry: analyze with
tail = false and wrap the result in the trampoline driver. -/
def evalPublic (gas depth : Nat) (sexp : Value) (fid : Nat) (s : State) :
    Except SchemeError (Value × State) :=
  exBind (eval gas depth sexp fid false s) fun r => force gas depth r.1 r.2

/-!
## Claim C3: falsity

The condition test of `if` and the operand tests of `and`/`or` compare
against the Boolean `false` by host identity (`!== false` /
`=== false`).
-/

/-- `(if (quote v) (quote a) (quote b))`. -/
def ifTestSexp (v a b : Value) : Value :=
  listToValue [.sym "if", listToValue [.sym "quote", v],
    listToValue [.sym "quote", a], listToValue [.sym "quote", b]]

/-- `(and (quote v) (quote a))`. -/
def andTestSexp (v a : Value) : Value :=
  listToValue [.sym "and", listToValue [.sym "quote", v],
    listToValue [.sym "quote", a]]

/-- `(or (quote v) (quote a))`. -/
def orTestSexp (v a : Value) : Value :=
  listToValue [.sym "or", listToValue [.sym "quote", v],
    listToValue [.sym "quote", a]]

/-- C3.  Exactly one value is treated as false by the condition test of
`if` and by the operand tests of `and` and `or`: the Boolean `false`.
For every other value `v` — Nil, zero and the empty string included —
`(if v a b)` evaluates `a`, `(and v a)` evaluates `a`, and `(or v a)`
returns `v` itself; with `v = false` they evaluate `b`, return
`false`, and evaluate `a` respectively. -/
theorem c3_falsity (v a b : Value) (s : State) :
    (evalPublic 8 8 (ifTestSexp v a b) 0 s =
      if v = Value.bool false then .ok (b, s) else .ok (a, s)) ∧
    (evalPublic 8 8 (andTestSexp v a) 0 s =
      if v = Value.bool false then .ok (.bool false, s) else .ok (a, s)) ∧
    (evalPublic 8 8 (orTestSexp v a) 0 s =
      if v = Value.bool false then .ok (a, s) else .ok (v, s)) := by
  refine ⟨?_, ?_, ?_⟩ <;>
    (cases v <;> first
      | (with_unfolding_all rfl)
      | (rename_i bv
         cases bv <;> with_unfolding_all rfl))

/-!
## Rewriting steps for the evaluator

The mutual evaluator is structurally recursive on `gas`, so each
clause below holds by `rfl` once `gas` (and, where checked, `depth`) is
in successor form.  Proofs drive the evaluator with these lemmas
instead of equation unfolding.
-/

theorem eval_gas_zero (d : Nat) (sexp : Value) (fid : Nat) (tail : Bool)
    (s : State) : eval 0 d sexp fid tail s = .error .outOfGas := rfl

theorem eval_depth_zero (g : Nat) (sexp : Value) (fid : Nat) (tail : Bool)
    (s : State) : eval (g + 1) 0 sexp fid tail s = .error .stackOverflow := rfl

theorem eval_sym_step (g d : Nat) (id : String) (fid : Nat) (tail : Bool)
    (s : State) :
    eval (g + 1) (d + 1) (.sym id) fid tail s
      = optCase (findFrame s fid id)
          (fun _ =>
            .ok (.done (optCase (lookupVar s fid id) (fun v => v) .undef), s))
          (.error (.err ("Unbound variable: " ++ id))) := rfl

theorem eval_num_step (g d : Nat) (q : ℚ) (fid : Nat) (tail : Bool)
    (s : State) :
    eval (g + 1) (d + 1) (.num q) fid tail s = .ok (.done (.num q), s) := rfl

theorem eval_str_step (g d : Nat) (st : String) (fid : Nat) (tail : Bool)
    (s : State) :
    eval (g + 1) (d + 1) (.str st) fid tail s = .ok (.done (.str st), s) := rfl

theorem eval_bool_step (g d : Nat) (b : Bool) (fid : Nat) (tail : Bool)
    (s : State) :
    eval (g + 1) (d + 1) (.bool b) fid tail s = .ok (.done (.bool b), s) := rfl

theorem eval_nil_step (g d : Nat) (fid : Nat) (tail : Bool) (s : State) :
    eval (g + 1) (d + 1) .nil fid tail s = .ok (.done .nil, s) := rfl

theorem eval_pair_sym_step (g d : Nat) (nm : String) (cdr : Value) (fid : Nat)
    (tail : Bool) (s : State) :
    eval (g + 1) (d + 1) (.pair (.sym nm) cdr) fid tail s
      = evalSymForm g (d + 1) nm cdr fid tail s := rfl

theorem evalSymForm_gas_zero (dp : Nat) (nm : String) (cdr : Value) (fid : Nat)
    (tail : Bool) (s : State) :
    evalSymForm 0 dp nm cdr fid tail s = .error .outOfGas := rfl

/-- One full dispatch step of `evalSymForm` (the whole special-form
if-chain), with the fuel peeled off. -/
theorem evalSymForm_step (g dp : Nat) (nm : String) (cdr : Value) (fid : Nat)
    (tail : Bool) (s : State) :
    evalSymForm (g + 1) dp nm cdr fid tail s =
    (if nm = "quote" then
      match cdr with
      | .pair q _ => .ok (.done q, s)
      | .nil => .error (.jsError "quote: reading car of null")
      | _ => .ok (.done .undef, s)
    else if nm = "lambda" then
      match cdr with
      | .pair ps bodyV =>
          exBind (getLambdaArgs ps) fun pr =>
            .ok (.done (.closure pr.1 pr.2 bodyV fid), s)
      | _ => .error (.jsError "lambda: malformed form")
    else if nm = "define" then
      match cdr with
      | .pair defhead rest =>
          (match defhead with
           | .pair fname fparams =>
               exBind (symName fname) fun dn =>
                 exBind (getLambdaArgs fparams) fun pr =>
                   .ok (.done (Value.sym dn),
                     updateFrame s fid dn (.closure pr.1 pr.2 rest fid))
           | _ =>
               exBind (symName defhead) fun dn =>
                 exBind (safeCarE rest) fun vexpr =>
                   exBind (eval g (dp - 1) vexpr fid false s) fun r1 =>
                     exBind (force g (dp - 1) r1.1 r1.2) fun vr =>
                       .ok (.done (Value.sym dn),
                         updateFrame vr.2 fid dn vr.1))
      | .nil => .error (.jsError "define: reading car of null")
      | _ => .error (.err "id: Expected identifier.")
    else if nm = "set!" then
      match cdr with
      | .pair idE rest =>
          exBind (symName idE) fun dn =>
            exBind (safeCarE rest) fun vexpr =>
              optCase (findFrame s fid dn)
                (fun tf =>
                  exBind (eval g (dp - 1) vexpr fid false s) fun r1 =>
                    exBind (force g (dp - 1) r1.1 r1.2) fun vr =>
                      .ok (.done vr.1, updateFrame vr.2 tf dn vr.1))
                (.error (.err ("set!: Unbound variable: " ++ dn)))
      | .nil => .error (.jsError "set!: reading car of null")
      | _ => .error (.err "id: Expected identifier.")
    else if nm = "or" then
      match cdr with
      | .nil => .ok (.done (.bool false), s)
      | .pair a d => evalOrForms g (dp - 1) (a :: consElems d) fid tail s
      | _ => .error (.jsError "or: spreading a non-iterable")
    else if nm = "and" then
      match cdr with
      | .nil => .ok (.done (.bool true), s)
      | .pair a d => evalAndForms g (dp - 1) (a :: consElems d) fid tail s
      | _ => .error (.jsError "and: spreading a non-iterable")
    else if nm = "if" then
      match cdr with
      | .pair condE rest =>
          (match rest with
           | .pair conseqE altSexp =>
               exBind (eval g (dp - 1) condE fid false s) fun r1 =>
                 exBind (force g (dp - 1) r1.1 r1.2) fun cv =>
                   if cv.1 = Value.bool false then
                     match altSexp with
                     | .nil => .ok (.done (.bool false), cv.2)
                     | .pair _ _ => evalBody g (dp - 1) altSexp fid tail cv.2
                     | _ => .error (.jsError "if: spreading a non-iterable body")
                   else eval g (dp - 1) conseqE fid tail cv.2
           | _ => .error (.err "car: Expected cons."))
      | _ => .error (.jsError "if: reading car of a non-object")
    else if nm = "define-macro" then
      match cdr with
      | .pair mh rest =>
          exBind (safeCarE mh) fun fname =>
            exBind (symName fname) fun dn =>
              exBind (safeCdrE mh) fun fparams =>
                exBind (getLambdaArgs fparams) fun pr =>
                  .ok (.done (Value.sym dn),
                    setMacroEntry s dn (.closure pr.1 pr.2 rest fid))
      | .nil => .error (.jsError "define-macro: reading car of null")
      | _ => .error (.err "car: Expected cons.")
    else if nm = "quasiquote" then
      match cdr with
      | .pair q _ =>
          exBind (evalQuasi g (dp - 1) q fid s) fun vr =>
            .ok (.done vr.1, vr.2)
      | .nil => .error (.jsError "quasiquote: reading car of null")
      | _ => .ok (.done .undef, s)
    else evalAppForm g dp (.sym nm) cdr fid tail s) := rfl

theorem evalAppForm_step (g dp : Nat) (car cdr : Value) (fid : Nat)
    (tail : Bool) (s : State) :
    evalAppForm (g + 1) dp car cdr fid tail s
      = exBind (eval g (dp - 1) car fid false s) fun r1 =>
          exBind (force g (dp - 1) r1.1 r1.2) fun fv =>
            exBind (evalArgs g (dp - 1) (consElems cdr) fid fv.2) fun av =>
              match fv.1 with
              | .builtin name =>
                  exBind (applyBuiltinE g (dp - 1) name av.1 av.2) fun bv =>
                    .ok (.done bv.1, bv.2)
              | .closure ps rp body env =>
                  let pf := pushFrame av.2 (bindArgs ps rp av.1 env)
                  if tail then .ok (.pending body pf.1, pf.2)
                  else
                    exBind (evalBody g (dp - 1) body pf.1 true pf.2) fun r2 =>
                      exBind (force g (dp - 1) r2.1 r2.2) fun vr =>
                        .ok (.done vr.1, vr.2)
              | _ => .error (.err "Not a function") := rfl

theorem evalBody_cons_step (g d : Nat) (e e2 r2 : Value) (fid : Nat)
    (tail : Bool) (s : State) :
    evalBody (g + 1) (d + 1) (.pair e (.pair e2 r2)) fid tail s
      = exBind (eval g d e fid false s) fun r1 =>
          exBind (force g d r1.1 r1.2) fun vr =>
            evalBody g (d + 1) (.pair e2 r2) fid tail vr.2 := rfl

theorem evalBody_single_step (g d : Nat) (e : Value) (fid : Nat)
    (tail : Bool) (s : State) :
    evalBody (g + 1) (d + 1) (.pair e .nil) fid tail s
      = eval g d e fid tail s := rfl

theorem force_done (g d : Nat) (v : Value) (s : State) :
    force g d (.done v) s = .ok (v, s) := by
  cases g <;> rfl

theorem force_pending_step (g d : Nat) (body : Value) (fid2 : Nat)
    (s : State) :
    force (g + 1) d (.pending body fid2) s
      = exBind (evalBody g (d - 1) body fid2 true s) fun r =>
          force g d r.1 r.2 := rfl

theorem evalArgs_nil_step (g d : Nat) (fid : Nat) (s : State) :
    evalArgs (g + 1) d [] fid s = .ok ([], s) := rfl

theorem evalArgs_cons_step (g d : Nat) (e : Value) (rest : List Value)
    (fid : Nat) (s : State) :
    evalArgs (g + 1) d (e :: rest) fid s
      = exBind (eval g (d - 1) e fid false s) fun r1 =>
          exBind (force g (d - 1) r1.1 r1.2) fun vr =>
            exBind (evalArgs g d rest fid vr.2) fun ar =>
              .ok (vr.1 :: ar.1, ar.2) := rfl

theorem evalQuasi_pair_step (g d : Nat) (c dd : Value) (fid : Nat)
    (s : State) :
    evalQuasi (g + 1) (d + 1) (.pair c dd) fid s
      = (if c = Value.sym "unquote" then
          exBind (safeCarE dd) fun inner =>
            exBind (eval g d inner fid false s) fun r1 =>
              force g d r1.1 r1.2
        else if c = Value.sym "unquote-splicing" then
          .error (.err "unquote-splicing: not valid at top level of quasiquote")
        else
          exBind (quasiSpine g (d + 1) (.pair c dd) fid s) fun r =>
            .ok (r.1.1.foldr Value.pair r.1.2, r.2)) := rfl

theorem quasiSpine_splice_step (g d : Nat) (ed rest : Value) (fid : Nat)
    (s : State) :
    quasiSpine (g + 1) d (.pair (.pair (.sym "unquote-splicing") ed) rest) fid s
      = exBind (safeCarE ed) fun inner =>
          exBind (eval g (d - 1) inner fid false s) fun r1 =>
            exBind (force g (d - 1) r1.1 r1.2) fun vr =>
              if vr.1 = Value.nil ∨ vr.1.isPair then
                exBind (consToListJs vr.1) fun elems =>
                  exBind (quasiSpine g d rest fid vr.2) fun rr =>
                    .ok ((elems ++ rr.1.1, rr.1.2), rr.2)
              else .error (.err "unquote-splicing: expected a list") := rfl

theorem quasiSpine_nil_step (g d : Nat) (fid : Nat) (s : State) :
    quasiSpine (g + 1) d .nil fid s = .ok (([], Value.nil), s) := rfl

/-!
Per-form steps: with a concrete head name the special-form if-chain
reduces definitionally.
-/

theorem evalSym_quote_step (g dp : Nat) (q t : Value) (fid : Nat)
    (tail : Bool) (s : State) :
    evalSymForm (g + 1) dp "quote" (.pair q t) fid tail s
      = .ok (.done q, s) := rfl

theorem evalSym_define_val_step (g dp : Nat) (x : String) (e t : Value)
    (fid : Nat) (tail : Bool) (s : State) :
    evalSymForm (g + 1) dp "define" (.pair (.sym x) (.pair e t)) fid tail s
      = exBind (eval g (dp - 1) e fid false s) fun r1 =>
          exBind (force g (dp - 1) r1.1 r1.2) fun vr =>
            .ok (.done (.sym x), updateFrame vr.2 fid x vr.1) := rfl

theorem evalSym_define_fn_step (g dp : Nat) (f : String) (params rest : Value)
    (fid : Nat) (tail : Bool) (s : State) :
    evalSymForm (g + 1) dp "define" (.pair (.pair (.sym f) params) rest)
        fid tail s
      = exBind (getLambdaArgs params) fun pr =>
          .ok (.done (.sym f),
            updateFrame s fid f (.closure pr.1 pr.2 rest fid)) := rfl

theorem evalSym_defmacro_step (g dp : Nat) (n : String) (params rest : Value)
    (fid : Nat) (tail : Bool) (s : State) :
    evalSymForm (g + 1) dp "define-macro" (.pair (.pair (.sym n) params) rest)
        fid tail s
      = exBind (getLambdaArgs params) fun pr =>
          .ok (.done (.sym n),
            setMacroEntry s n (.closure pr.1 pr.2 rest fid)) := rfl

theorem evalSym_set_step (g dp : Nat) (x : String) (e t : Value) (fid : Nat)
    (tail : Bool) (s : State) :
    evalSymForm (g + 1) dp "set!" (.pair (.sym x) (.pair e t)) fid tail s
      = optCase (findFrame s fid x)
          (fun tf =>
            exBind (eval g (dp - 1) e fid false s) fun r1 =>
              exBind (force g (dp - 1) r1.1 r1.2) fun vr =>
                .ok (.done vr.1, updateFrame vr.2 tf x vr.1))
          (.error (.err ("set!: Unbound variable: " ++ x))) := rfl

theorem evalSym_if_step (g dp : Nat) (condE conseqE altSexp : Value)
    (fid : Nat) (tail : Bool) (s : State) :
    evalSymForm (g + 1) dp "if" (.pair condE (.pair conseqE altSexp))
        fid tail s
      = exBind (eval g (dp - 1) condE fid false s) fun r1 =>
          exBind (force g (dp - 1) r1.1 r1.2) fun cv =>
            if cv.1 = Value.bool false then
              match altSexp with
              | .nil => .ok (.done (.bool false), cv.2)
              | .pair _ _ => evalBody g (dp - 1) altSexp fid tail cv.2
              | _ => .error (.jsError "if: spreading a non-iterable body")
            else eval g (dp - 1) conseqE fid tail cv.2 := rfl

theorem evalSym_quasi_step (g dp : Nat) (q t : Value) (fid : Nat)
    (tail : Bool) (s : State) :
    evalSymForm (g + 1) dp "quasiquote" (.pair q t) fid tail s
      = exBind (evalQuasi g (dp - 1) q fid s) fun vr =>
          .ok (.done vr.1, vr.2) := rfl

/-!
## Claim C10: the result of `define` and `define-macro`
-/

/-- `(define x e)`. -/
def defineSexp (x : String) (e : Value) : Value :=
  listToValue [.sym "define", .sym x, e]

/-- `(define (f . params) body…)`: the head is `(f . params)` and the
remainder of the form is the body list. -/
def defineFnSexp (f : String) (params bodyRest : Value) : Value :=
  .pair (.sym "define") (.pair (.pair (.sym f) params) bodyRest)

/-- `(define-macro (n . params) body…)`. -/
def defMacroSexp (n : String) (params bodyRest : Value) : Value :=
  .pair (.sym "define-macro") (.pair (.pair (.sym n) params) bodyRest)

/-- C10.  Whenever a `define` form — value form or procedure shorthand —
or a `define-macro` form evaluates successfully, the returned result is
a freshly constructed Symbol carrying the defined identifier (`new
SchemeId(id)`), never the value that was bound. -/
theorem c10_define_returns_symbol (gas depth : Nat) (fid : Nat) (tail : Bool)
    (s s'' : State) (r : TrampolineResult) :
    (∀ (x : String) (e : Value),
      eval gas depth (defineSexp x e) fid tail s = .ok (r, s'') →
        r = .done (.sym x)) ∧
    (∀ (f : String) (params bodyRest : Value),
      eval gas depth (defineFnSexp f params bodyRest) fid tail s = .ok (r, s'') →
        r = .done (.sym f)) ∧
    (∀ (n : String) (params bodyRest : Value),
      eval gas depth (defMacroSexp n params bodyRest) fid tail s = .ok (r, s'') →
        r = .done (.sym n)) := by
  cases gas with
  | zero =>
      refine ⟨fun x e h => ?_, fun f params bodyRest h => ?_,
        fun n params bodyRest h => ?_⟩ <;>
        (rw [eval_gas_zero] at h; exact Except.noConfusion h)
  | succ g =>
      cases depth with
      | zero =>
          refine ⟨fun x e h => ?_, fun f params bodyRest h => ?_,
            fun n params bodyRest h => ?_⟩ <;>
            (rw [eval_depth_zero] at h; exact Except.noConfusion h)
      | succ dd =>
          cases g with
          | zero =>
              refine ⟨fun x e h => ?_, fun f params bodyRest h => ?_,
                fun n params bodyRest h => ?_⟩
              · simp only [defineSexp, listToValue, List.foldr] at h
                rw [eval_pair_sym_step, evalSymForm_gas_zero] at h
                exact Except.noConfusion h
              · rw [defineFnSexp] at h
                rw [eval_pair_sym_step, evalSymForm_gas_zero] at h
                exact Except.noConfusion h
              · rw [defMacroSexp] at h
                rw [eval_pair_sym_step, evalSymForm_gas_zero] at h
                exact Except.noConfusion h
          | succ g2 =>
              refine ⟨fun x e h => ?_, fun f params bodyRest h => ?_,
                fun n params bodyRest h => ?_⟩
              · simp only [defineSexp, listToValue, List.foldr] at h
                rw [eval_pair_sym_step, evalSym_define_val_step] at h
                obtain ⟨r1, hr1, h⟩ := exBind_ok_inv h
                obtain ⟨vr, hvr, h⟩ := exBind_ok_inv h
                injection h with h1
                injection h1 with h2 h3
                exact h2.symm
              · rw [defineFnSexp] at h
                rw [eval_pair_sym_step, evalSym_define_fn_step] at h
                obtain ⟨pr, hpr, h⟩ := exBind_ok_inv h
                injection h with h1
                injection h1 with h2 h3
                exact h2.symm
              · rw [defMacroSexp] at h
                rw [eval_pair_sym_step, evalSym_defmacro_step] at h
                obtain ⟨pr, hpr, h⟩ := exBind_ok_inv h
                injection h with h1
                injection h1 with h2 h3
                exact h2.symm

/-- Witness for C10: `(define x (quote 1))`, the shorthand
`(define (f) (quote 2))` and `(define-macro (m) (quote 3))` all
evaluate to the symbol naming the definition. -/
theorem c10_define_returns_symbol_witness :
    eval 8 8 (defineSexp "x" (listToValue [.sym "quote", .num 1])) 0 false
        initState
      = .ok (.done (.sym "x"),
          updateFrame initState 0 "x" (.num 1)) ∧
    (.done (Value.sym "x") : TrampolineResult) = .done (.sym "x") := by
  constructor
  · with_unfolding_all rfl
  · exact (c10_define_returns_symbol 8 8 0 false initState
      (updateFrame initState 0 "x" (.num 1)) (.done (.sym "x"))).1 "x"
      (listToValue [.sym "quote", .num 1]) (by with_unfolding_all rfl)

/-!
## Claim C4: `set!` semantics

`analyzeSet` finds the owning frame with `Frame.findFrame` — the walk
up parent links — and mutates exactly that frame; when the walk reaches
the root without finding the binding it throws
`set!: Unbound variable: x`.
-/

/-- `(set! x (quote c))`: the value expression is quoted so the bound
value is exactly `c`. -/
def setTestSexp (x : String) (c : Value) : Value :=
  listToValue [.sym "set!", .sym x, listToValue [.sym "quote", c]]

/-- `Map.set` then `Map.get` on the same key reads the new value. -/
theorem assocGet_assocSet_self (bs : List (String × Value)) (k : String)
    (v : Value) : assocGet (assocSet bs k v) k = some v := by
  induction bs with
  | nil =>
      simp only [assocSet, assocGet]
      simp
  | cons hd rest ih =>
      obtain ⟨a, w⟩ := hd
      rw [assocSet]
      by_cases hk : a = k
      · rw [if_pos hk]
        simp only [assocGet]
        simp
      · rw [if_neg hk]
        simp only [assocGet]
        rw [if_neg hk]
        exact ih

/-- `Map.set` leaves every other key's binding unchanged. -/
theorem assocGet_assocSet_ne (bs : List (String × Value)) (k y : String)
    (v : Value) (hy : y ≠ k) :
    assocGet (assocSet bs k v) y = assocGet bs y := by
  induction bs with
  | nil =>
      simp only [assocSet, assocGet]
      rw [if_neg (fun h => hy h.symm)]
  | cons hd rest ih =>
      obtain ⟨a, w⟩ := hd
      rw [assocSet]
      by_cases hk : a = k
      · rw [if_pos hk]
        simp only [assocGet]
        rw [if_neg (fun h => hy h.symm),
          if_neg (fun h => hy (hk.symm.trans h).symm)]
      · rw [if_neg hk]
        simp only [assocGet]
        by_cases ha : a = y
        · rw [if_pos ha, if_pos ha]
        · rw [if_neg ha, if_neg ha]
          exact ih

/-- Mutating frame `i` leaves every other frame untouched (frames are
separate host objects; `frame.set` touches one `Map`). -/
theorem getFrame_updateFrame_ne (s : State) (i : Nat) (name : String)
    (v : Value) (j : Nat) (hj : j ≠ i) :
    getFrame (updateFrame s i name v) j = getFrame s j := by
  rw [updateFrame]
  rcases hf : getFrame s i with _ | f
  · rw [optCase_none]
  · rw [optCase_some]
    exact List.getElem?_set_ne (Ne.symm hj)

/-- Mutating frame `i` replaces exactly its bindings by the
`Map.set` image. -/
theorem getFrame_updateFrame_self (s : State) (i : Nat) (name : String)
    (v : Value) (f : Frame) (hf : getFrame s i = some f) :
    getFrame (updateFrame s i name v) i =
      some { f with bindings := assocSet f.bindings name v } := by
  rw [updateFrame, hf, optCase_some]
  exact List.getElem?_set_self (getSome_lt s.frames i f hf)

/-- C4.  Evaluating `(set! x (quote c))` mutates the binding of `x` in
the nearest frame holding `x` on the parent chain of the current frame,
and nothing else: when the walk finds `tf`, that frame is the nearest
holder, the form evaluates to `c` with state `updateFrame s tf x c`,
every frame other than `tf` is unchanged, and inside `tf` only the
binding of `x` changes (to `c`); on well-formed frame chains the walk
finds every nearest holder; when the walk finds nothing — equivalently,
when no frame on the chain holds `x` — evaluation fails with
`set!: Unbound variable: x`. -/
theorem c4_set_semantics (s : State) (fid : Nat) (x : String) (c : Value) :
    (∀ tf, findFrame s fid x = some tf →
      Nearest s x fid tf ∧
      evalPublic 9 9 (setTestSexp x c) fid s = .ok (c, updateFrame s tf x c) ∧
      (∀ j, j ≠ tf → getFrame (updateFrame s tf x c) j = getFrame s j) ∧
      (∀ f, getFrame s tf = some f →
        getFrame (updateFrame s tf x c) tf =
          some { f with bindings := assocSet f.bindings x c } ∧
        assocGet (assocSet f.bindings x c) x = some c ∧
        (∀ y, y ≠ x → assocGet (assocSet f.bindings x c) y =
          assocGet f.bindings y))) ∧
    (wfState s = true → ∀ tf, Nearest s x fid tf →
      findFrame s fid x = some tf) ∧
    (findFrame s fid x = none →
      evalPublic 9 9 (setTestSexp x c) fid s =
        .error (.err ("set!: Unbound variable: " ++ x))) ∧
    ((∀ tf, ¬ Nearest s x fid tf) →
      evalPublic 9 9 (setTestSexp x c) fid s =
        .error (.err ("set!: Unbound variable: " ++ x))) := by
  have hstep : evalPublic 9 9 (setTestSexp x c) fid s =
      optCase (findFrame s fid x)
        (fun tf => .ok (c, updateFrame s tf x c))
        (.error (.err ("set!: Unbound variable: " ++ x))) := by
    unfold evalPublic
    simp only [setTestSexp, listToValue, List.foldr]
    rw [eval_pair_sym_step, evalSym_set_step]
    rcases hff : findFrame s fid x with _ | tf <;>
      with_unfolding_all rfl
  refine ⟨fun tf htf => ?_, fun hw tf hn => nearest_findFrame s x hw fid tf hn,
    fun hnone => ?_, fun hnot => ?_⟩
  · refine ⟨findFrame_nearest s x fid tf htf, ?_, ?_, ?_⟩
    · rw [hstep, htf, optCase_some]
    · intro j hj
      exact getFrame_updateFrame_ne s tf x c j hj
    · intro f hf
      exact ⟨getFrame_updateFrame_self s tf x c f hf,
        assocGet_assocSet_self f.bindings x c,
        fun y hy => assocGet_assocSet_ne f.bindings x y c hy⟩
  · rw [hstep, hnone, optCase_none]
  · rcases hff : findFrame s fid x with _ | tf
    · rw [hstep, hff, optCase_none]
    · exact absurd (findFrame_nearest s x fid tf hff) (hnot tf)

/-- A two-frame chain: the root binds `x`, the child (the current
frame) binds only `y`. -/
def c4State : State :=
  { frames := [
      { bindings := [("x", .num 1)], parent := none },
      { bindings := [("y", .num 2)], parent := some 0 }],
    macros := [] }

/-- Witness for C4: from the child frame, `(set! x (quote 5))` mutates
the root (the nearest holder of `x`), and `(set! z (quote 5))` fails
with the unbound-variable error. -/
theorem c4_set_semantics_witness :
    Nearest c4State "x" 1 0 ∧
    evalPublic 9 9 (setTestSexp "x" (.num 5)) 1 c4State =
      .ok (.num 5, updateFrame c4State 0 "x" (.num 5)) ∧
    evalPublic 9 9 (setTestSexp "z" (.num 5)) 1 c4State =
      .error (.err ("set!: Unbound variable: " ++ "z")) := by
  have h1 := (c4_set_semantics c4State 1 "x" (.num 5)).1 0
    (by with_unfolding_all rfl)
  have h2 := (c4_set_semantics c4State 1 "z" (.num 5)).2.2.1
    (by with_unfolding_all rfl)
  exact ⟨h1.1, h1.2.1, h2⟩

/-!
## Claim C5: `unquote-splicing` inside a quasiquote list template

The splice branch of `analyzeQuasiquote` evaluates the spliced
expression, checks `value !== null && !(value instanceof SCons)` —
throwing `unquote-splicing: expected a list` exactly on non-Pair
non-Nil values — and pushes the walked elements into the constructed
list.
-/

/-- `(quasiquote (1 (unquote-splicing (quote v)) 2))`: a list template
with a spliced element between two literal neighbours. -/
def c5Sexp (v : Value) : Value :=
  listToValue [.sym "quasiquote",
    listToValue [.num 1,
      listToValue [.sym "unquote-splicing", listToValue [.sym "quote", v]],
      .num 2]]

theorem safeCarE_pair_step (a d : Value) : safeCarE (.pair a d) = .ok a := rfl

theorem quasiSpine_num_step (g d : Nat) (q : ℚ) (rest : Value) (fid : Nat)
    (s : State) :
    quasiSpine (g + 1) d (.pair (.num q) rest) fid s
      = exBind (evalQuasi g (d - 1) (.num q) fid s) fun vr =>
          exBind (quasiSpine g d rest fid vr.2) fun rr =>
            .ok ((vr.1 :: rr.1.1, rr.1.2), rr.2) := rfl

theorem evalQuasi_num_step (g d : Nat) (q : ℚ) (fid : Nat) (s : State) :
    evalQuasi (g + 1) (d + 1) (.num q) fid s = .ok (.num q, s) := rfl

/-- An `if` hoists out of `exBind`. -/
theorem exBind_ite {α β : Type} (p : Prop) [Decidable p]
    (a b : Except SchemeError α) (k : α → Except SchemeError β) :
    exBind (if p then a else b) k
      = if p then exBind a k else exBind b k := by
  by_cases h : p
  · rw [if_pos h, if_pos h]
  · rw [if_neg h, if_neg h]

/-- The element walk succeeds only on Nil or a Pair. -/
theorem consToListJs_ok_shape (v : Value) (elems : List Value)
    (h : consToListJs v = .ok elems) : v = Value.nil ∨ v.isPair = true := by
  cases v
  case nil => exact Or.inl rfl
  case pair a d => exact Or.inr rfl
  all_goals (simp only [consToListJs] at h; exact Except.noConfusion h)

/-- The element walk never throws the analyzer's `Error` kind: its only
failure is the host TypeError of reading `.car` off the end of an
improper list. -/
theorem consToListJs_error_js : ∀ (v : Value) (e : SchemeError),
    consToListJs v = .error e → ∃ m, e = SchemeError.jsError m := by
  intro v
  induction v with
  | nil =>
      intro e h
      exact Except.noConfusion h
  | pair a d iha ihd =>
      intro e h
      simp only [consToListJs] at h
      rcases hd : consToListJs d with e2 | r
      · rw [hd, exBind_error] at h
        injection h with h1
        obtain ⟨m, hm⟩ := ihd e2 hd
        exact ⟨m, by rw [← h1]; exact hm⟩
      · rw [hd, exBind_ok] at h
        exact Except.noConfusion h
  | _ =>
      intro e h
      simp only [consToListJs] at h
      injection h with h1
      exact ⟨_, h1.symm⟩

/-- Reduction of the C5 template down to the splice guard: the
evaluation is the guard on the spliced value, then the element walk,
then the construction of `(1 elems… 2)`. -/
theorem c5_comp (v : Value) (fid : Nat) (s : State) :
    evalPublic 9 9 (c5Sexp v) fid s
      = (if v = Value.nil ∨ v.isPair = true then
          exBind (consToListJs v) fun elems =>
            .ok (listToValue (.num 1 :: (elems ++ [.num 2])), s)
        else .error (.err "unquote-splicing: expected a list")) := by
  unfold evalPublic
  simp only [c5Sexp, listToValue, List.foldr]
  rw [eval_pair_sym_step, evalSym_quasi_step,
    show (9 : Nat) - 1 = 8 from rfl, evalQuasi_pair_step,
    if_neg (show ¬ (Value.num 1 = Value.sym "unquote") from
      fun h => Value.noConfusion h),
    if_neg (show ¬ (Value.num 1 = Value.sym "unquote-splicing") from
      fun h => Value.noConfusion h),
    quasiSpine_num_step, show (8 : Nat) - 1 = 7 from rfl,
    evalQuasi_num_step]
  simp only [exBind_ok]
  rw [quasiSpine_splice_step, safeCarE_pair_step]
  simp only [exBind_ok]
  rw [show (8 : Nat) - 1 = 7 from rfl, eval_pair_sym_step,
    evalSym_quote_step]
  simp only [exBind_ok]
  rw [force_done]
  simp only [exBind_ok]
  rw [show quasiSpine 4 8 (Value.pair (Value.num 2) Value.nil) fid s
      = .ok (([Value.num 2], Value.nil), s) from by with_unfolding_all rfl]
  simp only [exBind_ok]
  rw [exBind_ite, exBind_ite, exBind_ite, exBind_ite]
  by_cases hg : v = Value.nil ∨ v.isPair = true
  · rw [if_pos hg, if_pos hg]
    rcases hc : consToListJs v with e | elems
    · simp only [exBind_error]
    · simp only [exBind_ok]
      rw [force_done]
      simp only [List.foldr]
  · rw [if_neg hg, if_neg hg]
    simp only [exBind_error]

/-- C5.  In the list template `(1 (unquote-splicing (quote v)) 2)`,
evaluation under `quasiquote` walks the spliced value and splices its
elements between the neighbouring literals whenever the walk succeeds
(in particular for every proper list and for nil), and it fails with
`unquote-splicing: expected a list` exactly when the spliced value is
neither a Pair nor Nil. -/
theorem c5_splicing (v : Value) (fid : Nat) (s : State) :
    (∀ elems, consToListJs v = .ok elems →
      evalPublic 9 9 (c5Sexp v) fid s =
        .ok (listToValue (.num 1 :: (elems ++ [.num 2])), s)) ∧
    (evalPublic 9 9 (c5Sexp v) fid s =
        .error (.err "unquote-splicing: expected a list") ↔
      ¬ (v = Value.nil ∨ v.isPair = true)) := by
  constructor
  · intro elems hc
    rw [c5_comp, if_pos (consToListJs_ok_shape v elems hc), hc, exBind_ok]
  · by_cases hg : v = Value.nil ∨ v.isPair = true
    · rw [c5_comp, if_pos hg]
      constructor
      · intro h
        exfalso
        rcases hc : consToListJs v with e | elems
        · rw [hc, exBind_error] at h
          injection h with h1
          obtain ⟨m, hm⟩ := consToListJs_error_js v e hc
          rw [hm] at h1
          exact SchemeError.noConfusion h1
        · rw [hc, exBind_ok] at h
          exact Except.noConfusion h
      · intro h
        exact absurd hg h
    · rw [c5_comp, if_neg hg]
      exact ⟨fun _ => hg, fun _ => rfl⟩

/-- Witness for C5: splicing the proper list `(a b)` gives
`(1 a b 2)`; splicing the number `3` fails with the expected-a-list
error. -/
theorem c5_splicing_witness :
    evalPublic 9 9 (c5Sexp (listToValue [.sym "a", .sym "b"])) 0 initState =
      .ok (listToValue [.num 1, .sym "a", .sym "b", .num 2], initState) ∧
    evalPublic 9 9 (c5Sexp (.num 3)) 0 initState =
      .error (.err "unquote-splicing: expected a list") := by
  constructor
  · exact (c5_splicing (listToValue [.sym "a", .sym "b"]) 0 initState).1
      [.sym "a", .sym "b"] (by with_unfolding_all rfl)
  · exact (c5_splicing (.num 3) 0 initState).2.mpr
      (by
        rintro (h | h)
        · exact Value.noConfusion h
        · exact Bool.noConfusion h)

/-!
## Claim C9: thunks are never observable

`trampolineThunk` results (`pending`) arise only in the tail branch of
`analyzeApplication`; every consumer of a value — the public entry, the
operand loop, `define`/`set!` binding, condition tests — wraps the
producing evaluation in `trampoline`.  Formally: with `tail = false`
(the mode of the public entry and of every value position) a successful
evaluation never returns a `pending` result, so the driver and all
value consumers only ever see forced `Value`s.
-/

/-- A result that cannot expose a thunk: if it succeeds, the returned
`TrampolineResult` is `done`. -/
def OkDone (x : Except SchemeError (TrampolineResult × State)) : Prop :=
  ∀ r s2, x = .ok (r, s2) → ∃ v, r = TrampolineResult.done v

theorem okDone_error (e : SchemeError) :
    OkDone (.error e) := fun _ _ h => Except.noConfusion h

theorem okDone_ok_done (v : Value) (s : State) :
    OkDone (.ok (.done v, s)) := by
  intro r s2 h
  injection h with h1
  exact ⟨v, (congrArg Prod.fst h1).symm⟩

theorem okDone_exBind {α : Type} (x : Except SchemeError α)
    (f : α → Except SchemeError (TrampolineResult × State))
    (hf : ∀ a, OkDone (f a)) : OkDone (exBind x f) := by
  cases x with
  | error e => exact okDone_error e
  | ok a => exact hf a

theorem okDone_optCase {α : Type} (x : Option α)
    (fs : α → Except SchemeError (TrampolineResult × State))
    (fn : Except SchemeError (TrampolineResult × State))
    (hs : ∀ a, OkDone (fs a)) (hn : OkDone fn) : OkDone (optCase x fs fn) := by
  cases x with
  | none => exact hn
  | some a => exact hs a

theorem okDone_ite (p : Prop) [Decidable p]
    (a b : Except SchemeError (TrampolineResult × State))
    (ha : OkDone a) (hb : OkDone b) : OkDone (if p then a else b) := by
  by_cases h : p
  · rw [if_pos h]; exact ha
  · rw [if_neg h]; exact hb

/-- Joint invariant over the mutual evaluator: in non-tail mode no
evaluation path can succeed with a `pending` result. -/
theorem noThunkAll : ∀ gas : Nat,
    (∀ depth sexp fid s, OkDone (eval gas depth sexp fid false s)) ∧
    (∀ depth nm cdr fid s, OkDone (evalSymForm gas depth nm cdr fid false s)) ∧
    (∀ depth car cdr fid s,
      OkDone (evalAppForm gas depth car cdr fid false s)) ∧
    (∀ depth body fid s, OkDone (evalBody gas depth body fid false s)) ∧
    (∀ depth forms fid s,
      OkDone (evalOrForms gas depth forms fid false s)) ∧
    (∀ depth forms fid s,
      OkDone (evalAndForms gas depth forms fid false s)) := by
  intro gas
  induction gas with
  | zero =>
      exact ⟨fun _ _ _ _ => okDone_error _, fun _ _ _ _ _ => okDone_error _,
        fun _ _ _ _ _ => okDone_error _, fun _ _ _ _ => okDone_error _,
        fun _ _ _ _ => okDone_error _, fun _ _ _ _ => okDone_error _⟩
  | succ g ih =>
      obtain ⟨ihe, ihs, iha, ihb, iho, ihn⟩ := ih
      refine ⟨?_, ?_, ?_, ?_, ?_, ?_⟩
      · -- eval
        intro depth sexp fid s
        apply okDone_ite
        · exact okDone_error _
        · cases sexp with
          | sym id =>
              apply okDone_optCase
              · intro a
                exact okDone_ok_done _ _
              · exact okDone_error _
          | num q => exact okDone_ok_done _ _
          | str st => exact okDone_ok_done _ _
          | bool b => exact okDone_ok_done _ _
          | nil => exact okDone_ok_done _ _
          | pair car cdr =>
              cases car
              case sym hd => exact ihs _ _ _ _ _
              all_goals exact iha _ _ _ _ _
          | builtin n => exact okDone_error _
          | closure ps rp body env => exact okDone_error _
          | undef => exact okDone_error _
      · -- evalSymForm: the special-form chain
        intro depth nm cdr fid s
        apply okDone_ite
        · -- quote
          cases cdr
          case nil => exact okDone_error _
          all_goals exact okDone_ok_done _ _
        apply okDone_ite
        · -- lambda
          cases cdr
          case pair ps bodyV =>
              apply okDone_exBind
              intro pr
              exact okDone_ok_done _ _
          all_goals exact okDone_error _
        apply okDone_ite
        · -- define
          cases cdr
          case pair defhead rest =>
              cases defhead
              case pair fname fparams =>
                  apply okDone_exBind
                  intro dn
                  apply okDone_exBind
                  intro pr
                  exact okDone_ok_done _ _
              all_goals
                (apply okDone_exBind
                 intro dn
                 apply okDone_exBind
                 intro vexpr
                 apply okDone_exBind
                 intro r1
                 apply okDone_exBind
                 intro vr
                 exact okDone_ok_done _ _)
          case nil => exact okDone_error _
          all_goals exact okDone_error _
        apply okDone_ite
        · -- set!
          cases cdr
          case pair idE rest =>
              apply okDone_exBind
              intro dn
              apply okDone_exBind
              intro vexpr
              apply okDone_optCase
              · intro tf
                apply okDone_exBind
                intro r1
                apply okDone_exBind
                intro vr
                exact okDone_ok_done _ _
              · exact okDone_error _
          case nil => exact okDone_error _
          all_goals exact okDone_error _
        apply okDone_ite
        · -- or
          cases cdr
          case nil => exact okDone_ok_done _ _
          case pair a d => exact iho _ _ _ _
          all_goals exact okDone_error _
        apply okDone_ite
        · -- and
          cases cdr
          case nil => exact okDone_ok_done _ _
          case pair a d => exact ihn _ _ _ _
          all_goals exact okDone_error _
        apply okDone_ite
        · -- if
          cases cdr
          case pair condE rest =>
              cases rest
              case pair conseqE altSexp =>
                  apply okDone_exBind
                  intro r1
                  apply okDone_exBind
                  intro cv
                  apply okDone_ite
                  · cases altSexp
                    case nil => exact okDone_ok_done _ _
                    case pair x y => exact ihb _ _ _ _
                    all_goals exact okDone_error _
                  · exact ihe _ _ _ _
              all_goals exact okDone_error _
          all_goals exact okDone_error _
        apply okDone_ite
        · -- define-macro
          cases cdr
          case pair mh rest =>
              apply okDone_exBind
              intro fname
              apply okDone_exBind
              intro dn
              apply okDone_exBind
              intro fparams
              apply okDone_exBind
              intro pr
              exact okDone_ok_done _ _
          case nil => exact okDone_error _
          all_goals exact okDone_error _
        apply okDone_ite
        · -- quasiquote
          cases cdr
          case pair q t =>
              apply okDone_exBind
              intro vr
              exact okDone_ok_done _ _
          case nil => exact okDone_error _
          all_goals exact okDone_ok_done _ _
        -- fall through to an application
        exact iha _ _ _ _ _
      · -- evalAppForm: non-tail calls always force and rewrap
        intro depth car cdr fid s
        apply okDone_exBind
        intro r1
        apply okDone_exBind
        intro fv
        apply okDone_exBind
        intro av
        obtain ⟨fv1, fv2⟩ := fv
        cases fv1
        case builtin n =>
            apply okDone_exBind
            intro bv
            exact okDone_ok_done _ _
        case closure ps rp body env =>
            apply okDone_exBind
            intro r2
            apply okDone_exBind
            intro vr
            exact okDone_ok_done _ _
        all_goals exact okDone_error _
      · -- evalBody
        intro depth body fid s
        apply okDone_ite
        · exact okDone_error _
        · cases body
          case pair e rest =>
              apply okDone_ite
              · apply okDone_exBind
                intro r1
                apply okDone_exBind
                intro vr
                exact ihb _ _ _ _
              · exact ihe _ _ _ _
          all_goals exact okDone_error _
      · -- evalOrForms
        intro depth forms fid s
        cases forms
        case nil => exact okDone_error _
        case cons e rest =>
            cases rest
            case nil => exact ihe _ _ _ _
            case cons e2 rest2 =>
                apply okDone_exBind
                intro r1
                apply okDone_exBind
                intro vr
                apply okDone_ite
                · exact iho _ _ _ _
                · exact okDone_ok_done _ _
      · -- evalAndForms
        intro depth forms fid s
        cases forms
        case nil => exact okDone_error _
        case cons e rest =>
            cases rest
            case nil => exact ihe _ _ _ _
            case cons e2 rest2 =>
                apply okDone_exBind
                intro r1
                apply okDone_exBind
                intro vr
                apply okDone_ite
                · exact okDone_ok_done _ _
                · exact ihn _ _ _ _

/-- C9.  Thunks (deferred tail calls, the `pending` results handed to
the trampoline) are never observable to user code: evaluating any
expression in non-tail mode — the mode of the public analyzer entry
and of every value position (operands, bound values, tested
conditions, which in this development consume plain `Value`s) — never
succeeds with a `pending` result; consequently the public entry's
trampoline receives an already-`done` result and returns exactly its
value. -/
theorem c9_thunks_unobservable (gas depth : Nat) (sexp : Value) (fid : Nat)
    (s : State) :
    (∀ r s2, eval gas depth sexp fid false s = .ok (r, s2) →
      ∃ v, r = TrampolineResult.done v) ∧
    (∀ v s2, evalPublic gas depth sexp fid s = .ok (v, s2) →
      eval gas depth sexp fid false s = .ok (.done v, s2)) := by
  constructor
  · intro r s2 h
    exact (noThunkAll gas).1 depth sexp fid s r s2 h
  · intro v s2 h
    obtain ⟨⟨rv, rs⟩, h1, h2⟩ := exBind_ok_inv h
    obtain ⟨w, hw⟩ := (noThunkAll gas).1 depth sexp fid s rv rs h1
    subst hw
    dsimp only at h2
    rw [force_done] at h2
    injection h2 with h3
    injection h3 with h4 h5
    rw [h1, h4, h5]
/-- Witness for C9: `(quote 3)` at the public entry evaluates to an
already-`done` result whose forced value is `3`. -/
theorem c9_thunks_unobservable_witness :
    (∃ v, TrampolineResult.done (Value.num 3) = TrampolineResult.done v) ∧
    eval 8 8 (listToValue [.sym "quote", .num 3]) 0 false initState =
      .ok (.done (.num 3), initState) := by
  constructor
  · exact (c9_thunks_unobservable 8 8 (listToValue [.sym "quote", .num 3])
      0 initState).1 (.done (.num 3)) initState (by with_unfolding_all rfl)
  · exact (c9_thunks_unobservable 8 8 (listToValue [.sym "quote", .num 3])
      0 initState).2 (.num 3) initState (by with_unfolding_all rfl)

/-!
## Claim C2: tail recursion runs in constant stack depth

The concrete program of the claim:
`(define (loop n) (if (< n 1) (quote done) (loop (- n 1))))` and the
call `(loop N)`.  `depth` models the host stack: the trampoline
(`force`) recurses at an unchanged `depth` and each thunk body is
evaluated at `depth - 1`, so a fixed `depth` suffices for every `N`
while `gas` (the fuel of the embedding, counting host work) grows with
`N`.
-/

/-- `(if (< n 1) (quote done) (loop (- n 1)))`. -/
def loopBody : Value :=
  .pair (.sym "if")
    (.pair (.pair (.sym "<") (.pair (.sym "n") (.pair (.num 1) .nil)))
      (.pair (.pair (.sym "quote") (.pair (.sym "done") .nil))
        (.pair (.pair (.sym "loop")
          (.pair (.pair (.sym "-") (.pair (.sym "n") (.pair (.num 1) .nil)))
            .nil)) .nil)))

def bodyList : Value := .pair loopBody .nil

/-- The closure created by the `define` shorthand. -/
def loopClos : Value := .closure ["n"] none bodyList 0

def loopDefineSexp : Value :=
  .pair (.sym "define")
    (.pair (.pair (.sym "loop") (.pair (.sym "n") .nil)) bodyList)

/-- The global frame after the `define`. -/
def loopGlobal : Frame :=
  { bindings := assocSet initEnv.bindings "loop" loopClos, parent := none }

def loopState1 : State := { frames := [loopGlobal], macros := [] }

/-- The activation frame of one `loop` call. -/
def actFrame (q : ℚ) : Frame :=
  { bindings := [("n", Value.num q)], parent := some 0 }

def loopCall (n : ℕ) : Value :=
  .pair (.sym "loop") (.pair (.num (n : ℚ)) .nil)

theorem loop_define_eval :
    eval 9 9 loopDefineSexp 0 false initState
      = .ok (.done (.sym "loop"), loopState1) := by
  with_unfolding_all rfl

theorem loopGlobal_lt : assocGet loopGlobal.bindings "<"
    = some (.builtin "<") := by with_unfolding_all rfl

theorem loopGlobal_sub : assocGet loopGlobal.bindings "-"
    = some (.builtin "-") := by with_unfolding_all rfl

theorem loopGlobal_loop : assocGet loopGlobal.bindings "loop"
    = some loopClos := by with_unfolding_all rfl

theorem actFrame_n (q : ℚ) :
    assocGet (actFrame q).bindings "n" = some (.num q) := rfl

theorem actFrame_parent (q : ℚ) : (actFrame q).parent = some 0 := rfl

theorem actFrame_miss_lt (q : ℚ) :
    (assocGet (actFrame q).bindings "<").isSome = false := rfl

theorem actFrame_miss_sub (q : ℚ) :
    (assocGet (actFrame q).bindings "-").isSome = false := rfl

theorem actFrame_miss_loop (q : ℚ) :
    (assocGet (actFrame q).bindings "loop").isSome = false := rfl

/-- The walk stops at the starting frame when it owns the binding. -/
theorem findFrame_self (s : State) (fid : Nat) (name : String) (f : Frame)
    (hf : getFrame s fid = some f)
    (hhit : (assocGet f.bindings name).isSome = true) :
    findFrame s fid name = some fid := by
  rw [findFrame]
  obtain ⟨l, hl⟩ : ∃ l, s.frames.length = l + 1 :=
    ⟨s.frames.length - 1, by have := getSome_lt s.frames fid f hf; omega⟩
  rw [hl, findFrameAux, hf, optCase_some, if_pos hhit]

/-- The walk climbs one parent link to the global frame. -/
theorem findFrame_parent0 (s : State) (fid : Nat) (name : String)
    (f gf : Frame) (hf : getFrame s fid = some f)
    (hmiss : (assocGet f.bindings name).isSome = false)
    (hp : f.parent = some 0) (h0 : getFrame s 0 = some gf)
    (hhit : (assocGet gf.bindings name).isSome = true) (hfid : 1 ≤ fid) :
    findFrame s fid name = some 0 := by
  rw [findFrame]
  obtain ⟨l, hl⟩ : ∃ l, s.frames.length = l + 2 :=
    ⟨s.frames.length - 2, by have := getSome_lt s.frames fid f hf; omega⟩
  rw [hl, findFrameAux, hf, optCase_some,
    if_neg (by rw [hmiss]; exact Bool.false_ne_true), hp, optCase_some,
    findFrameAux, h0, optCase_some, if_pos hhit]

theorem lookupVar_self (s : State) (fid : Nat) (name : String) (f : Frame)
    (v : Value) (hf : getFrame s fid = some f)
    (hv : assocGet f.bindings name = some v) :
    lookupVar s fid name = some v := by
  rw [lookupVar, findFrame_self s fid name f hf (by rw [hv]; rfl),
    optCase_some, hf, optCase_some, hv]

theorem lookupVar_parent0 (s : State) (fid : Nat) (name : String)
    (f gf : Frame) (v : Value) (hf : getFrame s fid = some f)
    (hmiss : (assocGet f.bindings name).isSome = false)
    (hp : f.parent = some 0) (h0 : getFrame s 0 = some gf)
    (hv : assocGet gf.bindings name = some v) (hfid : 1 ≤ fid) :
    lookupVar s fid name = some v := by
  rw [lookupVar,
    findFrame_parent0 s fid name f gf hf hmiss hp h0 (by rw [hv]; rfl) hfid,
    optCase_some, h0, optCase_some, hv]

/-- Variable reference found in the current frame. -/
theorem eval_sym_self (g d : Nat) (name : String) (v : Value) (fid : Nat)
    (tail : Bool) (s : State) (f : Frame) (hf : getFrame s fid = some f)
    (hv : assocGet f.bindings name = some v) :
    eval (g + 1) (d + 1) (.sym name) fid tail s = .ok (.done v, s) := by
  rw [eval_sym_step, findFrame_self s fid name f hf (by rw [hv]; rfl),
    optCase_some, lookupVar_self s fid name f v hf hv, optCase_some]

/-- Variable reference found one parent link up, in the global frame. -/
theorem eval_sym_parent0 (g d : Nat) (name : String) (v : Value) (fid : Nat)
    (tail : Bool) (s : State) (f gf : Frame) (hf : getFrame s fid = some f)
    (hmiss : (assocGet f.bindings name).isSome = false)
    (hp : f.parent = some 0) (h0 : getFrame s 0 = some gf)
    (hv : assocGet gf.bindings name = some v) (hfid : 1 ≤ fid) :
    eval (g + 1) (d + 1) (.sym name) fid tail s = .ok (.done v, s) := by
  rw [eval_sym_step,
    findFrame_parent0 s fid name f gf hf hmiss hp h0 (by rw [hv]; rfl) hfid,
    optCase_some,
    lookupVar_parent0 s fid name f gf v hf hmiss hp h0 hv hfid, optCase_some]

theorem applyBuiltin_lt (a b : ℚ) :
    applyBuiltin "<" [.num a, .num b] = .ok (.bool (decide (a < b))) := by
  rw [applyBuiltin]
  simp only [ltChain, jsLess, exBind_ok]
  cases hd : decide (a < b) <;> rfl

theorem applyBuiltin_sub2 (a b : ℚ) :
    applyBuiltin "-" [.num a, .num b] = .ok (.num (a - b)) := by
  with_unfolding_all rfl

theorem applyBuiltinE_lt_step (g d : Nat) (args : List Value) (s : State) :
    applyBuiltinE (g + 1) d "<" args s
      = exBind (applyBuiltin "<" args) fun v => .ok (v, s) := rfl

theorem applyBuiltinE_sub_step (g d : Nat) (args : List Value) (s : State) :
    applyBuiltinE (g + 1) d "-" args s
      = exBind (applyBuiltin "-" args) fun v => .ok (v, s) := rfl

theorem evalSym_app_loop_step (g dp : Nat) (cdr : Value) (fid : Nat)
    (tail : Bool) (s : State) :
    evalSymForm (g + 1) dp "loop" cdr fid tail s
      = evalAppForm g dp (.sym "loop") cdr fid tail s := rfl

theorem evalSym_app_lt_step (g dp : Nat) (cdr : Value) (fid : Nat)
    (tail : Bool) (s : State) :
    evalSymForm (g + 1) dp "<" cdr fid tail s
      = evalAppForm g dp (.sym "<") cdr fid tail s := rfl

theorem evalSym_app_sub_step (g dp : Nat) (cdr : Value) (fid : Nat)
    (tail : Bool) (s : State) :
    evalSymForm (g + 1) dp "-" cdr fid tail s
      = evalAppForm g dp (.sym "-") cdr fid tail s := rfl

/-- `if` step with the alternative present (its body list is a pair). -/
theorem evalSym_if_pairalt_step (g dp : Nat) (condE conseqE a2 t2 : Value)
    (fid : Nat) (tail : Bool) (s : State) :
    evalSymForm (g + 1) dp "if" (.pair condE (.pair conseqE (.pair a2 t2)))
        fid tail s
      = exBind (eval g (dp - 1) condE fid false s) fun r1 =>
          exBind (force g (dp - 1) r1.1 r1.2) fun cv =>
            if cv.1 = Value.bool false then
              evalBody g (dp - 1) (.pair a2 t2) fid tail cv.2
            else eval g (dp - 1) conseqE fid tail cv.2 := rfl

/-- An application whose operator evaluates to a builtin. -/
theorem evalAppForm_builtin (g d : Nat) (car cdr : Value) (fid : Nat)
    (tail : Bool) (s : State) (r1 : TrampolineResult × State) (bn : String)
    (sb : State) (args : List Value) (sa : State)
    (h1 : eval g (d - 1) car fid false s = .ok r1)
    (h2 : force g (d - 1) r1.1 r1.2 = .ok (.builtin bn, sb))
    (h3 : evalArgs g (d - 1) (consElems cdr) fid sb = .ok (args, sa)) :
    evalAppForm (g + 1) d car cdr fid tail s
      = exBind (applyBuiltinE g (d - 1) bn args sa) fun bv =>
          .ok (.done bv.1, bv.2) := by
  rw [evalAppForm_step, h1]
  simp only [exBind_ok]
  rw [h2]
  simp only [exBind_ok]
  rw [h3]
  simp only [exBind_ok]

/-- A tail application of a closure returns a deferred thunk: no body
evaluation happens; the frame is pushed and a `pending` is returned. -/
theorem evalAppForm_closure_tail (g d : Nat) (car cdr : Value) (fid : Nat)
    (s : State) (r1 : TrampolineResult × State) (ps : List String)
    (rp : Option String) (body : Value) (env : Nat) (sb : State)
    (args : List Value) (sa : State)
    (h1 : eval g (d - 1) car fid false s = .ok r1)
    (h2 : force g (d - 1) r1.1 r1.2 = .ok (.closure ps rp body env, sb))
    (h3 : evalArgs g (d - 1) (consElems cdr) fid sb = .ok (args, sa)) :
    evalAppForm (g + 1) d car cdr fid true s
      = .ok (.pending body sa.frames.length,
          { frames := sa.frames ++ [bindArgs ps rp args env],
            macros := sa.macros }) := by
  rw [evalAppForm_step, h1]
  simp only [exBind_ok]
  rw [h2]
  simp only [exBind_ok]
  rw [h3]
  simp only [exBind_ok]
  rw [if_pos trivial]
  rfl

/-- A non-tail application of a closure runs the body and forces the
result through the local trampoline. -/
theorem evalAppForm_closure_nontail (g d : Nat) (car cdr : Value)
    (fid : Nat) (s : State) (r1 : TrampolineResult × State)
    (ps : List String) (rp : Option String) (body : Value) (env : Nat)
    (sb : State) (args : List Value) (sa : State)
    (h1 : eval g (d - 1) car fid false s = .ok r1)
    (h2 : force g (d - 1) r1.1 r1.2 = .ok (.closure ps rp body env, sb))
    (h3 : evalArgs g (d - 1) (consElems cdr) fid sb = .ok (args, sa)) :
    evalAppForm (g + 1) d car cdr fid false s
      = exBind (evalBody g (d - 1) body sa.frames.length true
            { frames := sa.frames ++ [bindArgs ps rp args env],
              macros := sa.macros }) fun r2 =>
          exBind (force g (d - 1) r2.1 r2.2) fun vr =>
            .ok (.done vr.1, vr.2) := by
  rw [evalAppForm_step, h1]
  simp only [exBind_ok]
  rw [h2]
  simp only [exBind_ok]
  rw [h3]
  simp only [exBind_ok]
  rw [if_neg Bool.false_ne_true]
  rfl

theorem evalArgs_one (g d : Nat) (e1 v1 : Value) (fid : Nat) (s : State)
    (h1 : eval (g + 1) (d + 1) e1 fid false s = .ok (.done v1, s)) :
    evalArgs (g + 2) (d + 2) [e1] fid s = .ok ([v1], s) := by
  rw [evalArgs_cons_step, show (d + 2) - 1 = d + 1 from rfl, h1]
  simp only [exBind_ok]
  rw [force_done]
  simp only [exBind_ok]
  rw [evalArgs_nil_step]
  simp only [exBind_ok]

theorem evalArgs_two (g d : Nat) (e1 e2 v1 v2 : Value) (fid : Nat)
    (s : State)
    (h1 : eval (g + 2) (d + 1) e1 fid false s = .ok (.done v1, s))
    (h2 : eval (g + 1) (d + 1) e2 fid false s = .ok (.done v2, s)) :
    evalArgs (g + 3) (d + 2) [e1, e2] fid s = .ok ([v1, v2], s) := by
  rw [evalArgs_cons_step, show (d + 2) - 1 = d + 1 from rfl, h1]
  simp only [exBind_ok]
  rw [force_done]
  simp only [exBind_ok]
  rw [evalArgs_cons_step, show (d + 2) - 1 = d + 1 from rfl, h2]
  simp only [exBind_ok]
  rw [force_done]
  simp only [exBind_ok]
  rw [evalArgs_nil_step]
  simp only [exBind_ok]

def condSexp : Value :=
  .pair (.sym "<") (.pair (.sym "n") (.pair (.num 1) .nil))

def subSexp : Value :=
  .pair (.sym "-") (.pair (.sym "n") (.pair (.num 1) .nil))

def tailCallSexp : Value := .pair (.sym "loop") (.pair subSexp .nil)

/-- `(< n 1)` in a loop activation: looks `<` up through the parent
link, reads `n` locally, and compares. -/
theorem eval_lt_app (b dd : Nat) (q : ℚ) (fid : Nat) (s : State)
    (hf : getFrame s fid = some (actFrame q))
    (h0 : getFrame s 0 = some loopGlobal) (hfid : 1 ≤ fid) :
    eval (b + 7) (dd + 3) condSexp fid false s
      = .ok (.done (.bool (decide (q < 1))), s) := by
  rw [show condSexp
      = .pair (.sym "<") (.pair (.sym "n") (.pair (.num 1) .nil)) from rfl]
  rw [eval_pair_sym_step, evalSym_app_lt_step]
  rw [evalAppForm_builtin (b + 4) (dd + 3) (.sym "<")
    (.pair (.sym "n") (.pair (.num 1) .nil)) fid false s
    (.done (.builtin "<"), s) "<" s [.num q, .num 1] s
    (eval_sym_parent0 (b + 3) (dd + 1) "<" (.builtin "<") fid false s
      (actFrame q) loopGlobal hf (actFrame_miss_lt q) (actFrame_parent q)
      h0 loopGlobal_lt hfid)
    (force_done (b + 4) (dd + 2) (.builtin "<") s)
    (evalArgs_two (b + 1) dd (.sym "n") (.num 1) (.num q) (.num 1) fid s
      (eval_sym_self (b + 2) dd "n" (.num q) fid false s (actFrame q) hf
        (actFrame_n q))
      (eval_num_step (b + 1) dd 1 fid false s))]
  rw [applyBuiltinE_lt_step, applyBuiltin_lt]
  simp only [exBind_ok]

/-- `(- n 1)` in a loop activation. -/
theorem eval_sub_app (b dd : Nat) (q : ℚ) (fid : Nat) (s : State)
    (hf : getFrame s fid = some (actFrame q))
    (h0 : getFrame s 0 = some loopGlobal) (hfid : 1 ≤ fid) :
    eval (b + 7) (dd + 3) subSexp fid false s
      = .ok (.done (.num (q - 1)), s) := by
  rw [show subSexp
      = .pair (.sym "-") (.pair (.sym "n") (.pair (.num 1) .nil)) from rfl]
  rw [eval_pair_sym_step, evalSym_app_sub_step]
  rw [evalAppForm_builtin (b + 4) (dd + 3) (.sym "-")
    (.pair (.sym "n") (.pair (.num 1) .nil)) fid false s
    (.done (.builtin "-"), s) "-" s [.num q, .num 1] s
    (eval_sym_parent0 (b + 3) (dd + 1) "-" (.builtin "-") fid false s
      (actFrame q) loopGlobal hf (actFrame_miss_sub q) (actFrame_parent q)
      h0 loopGlobal_sub hfid)
    (force_done (b + 4) (dd + 2) (.builtin "-") s)
    (evalArgs_two (b + 1) dd (.sym "n") (.num 1) (.num q) (.num 1) fid s
      (eval_sym_self (b + 2) dd "n" (.num q) fid false s (actFrame q) hf
        (actFrame_n q))
      (eval_num_step (b + 1) dd 1 fid false s))]
  rw [applyBuiltinE_sub_step, applyBuiltin_sub2]
  simp only [exBind_ok]

/-- The recursive call `(loop (- n 1))` in tail position: it pushes a
fresh activation frame and returns a `pending` thunk — no body
evaluation, no stack growth. -/
theorem eval_tailcall_app (b dd : Nat) (q : ℚ) (fid : Nat) (s : State)
    (hf : getFrame s fid = some (actFrame q))
    (h0 : getFrame s 0 = some loopGlobal) (hfid : 1 ≤ fid) :
    eval (b + 11) (dd + 5) tailCallSexp fid true s
      = .ok (.pending bodyList s.frames.length,
          { frames := s.frames ++ [actFrame (q - 1)],
            macros := s.macros }) := by
  rw [show tailCallSexp = .pair (.sym "loop") (.pair subSexp .nil) from rfl]
  rw [eval_pair_sym_step, evalSym_app_loop_step]
  rw [evalAppForm_closure_tail (b + 8) (dd + 5) (.sym "loop")
    (.pair subSexp .nil) fid s (.done loopClos, s) ["n"] none bodyList 0
    s [.num (q - 1)] s
    (eval_sym_parent0 (b + 7) (dd + 3) "loop" loopClos fid false s
      (actFrame q) loopGlobal hf (actFrame_miss_loop q) (actFrame_parent q)
      h0 loopGlobal_loop hfid)
    (force_done (b + 8) (dd + 4) loopClos s)
    (evalArgs_one (b + 6) (dd + 2) subSexp (.num (q - 1)) fid s
      (eval_sub_app b dd q fid s hf h0 hfid))]
  rfl

/-- One loop-body evaluation, terminating case `n < 1`: the body
evaluates `(quote done)` and finishes. -/
theorem loopBody_eval_zero (b dd : Nat) (q : ℚ) (fid : Nat) (s : State)
    (hf : getFrame s fid = some (actFrame q))
    (h0 : getFrame s 0 = some loopGlobal) (hfid : 1 ≤ fid)
    (hq : q < 1) :
    eval (b + 16) (dd + 7) loopBody fid true s
      = .ok (.done (.sym "done"), s) := by
  rw [show loopBody = .pair (.sym "if")
      (.pair condSexp
        (.pair (.pair (.sym "quote") (.pair (.sym "done") .nil))
          (.pair tailCallSexp .nil))) from rfl]
  rw [eval_pair_sym_step, evalSym_if_pairalt_step,
    show (dd + 7) - 1 = dd + 6 from rfl,
    eval_lt_app (b + 7) (dd + 3) q fid s hf h0 hfid]
  simp only [exBind_ok]
  rw [force_done]
  simp only [exBind_ok]
  rw [decide_eq_true hq,
    if_neg (fun h => Bool.noConfusion (Value.bool.inj h))]
  rw [eval_pair_sym_step, evalSym_quote_step]

/-- One loop-body evaluation, recursive case `¬ n < 1`: the body
reaches the tail call, which defers. -/
theorem loopBody_eval_succ (b dd : Nat) (q : ℚ) (fid : Nat) (s : State)
    (hf : getFrame s fid = some (actFrame q))
    (h0 : getFrame s 0 = some loopGlobal) (hfid : 1 ≤ fid)
    (hq : ¬ q < 1) :
    eval (b + 16) (dd + 7) loopBody fid true s
      = .ok (.pending bodyList s.frames.length,
          { frames := s.frames ++ [actFrame (q - 1)],
            macros := s.macros }) := by
  rw [show loopBody = .pair (.sym "if")
      (.pair condSexp
        (.pair (.pair (.sym "quote") (.pair (.sym "done") .nil))
          (.pair tailCallSexp .nil))) from rfl]
  rw [eval_pair_sym_step, evalSym_if_pairalt_step,
    show (dd + 7) - 1 = dd + 6 from rfl,
    eval_lt_app (b + 7) (dd + 3) q fid s hf h0 hfid]
  simp only [exBind_ok]
  rw [force_done]
  simp only [exBind_ok]
  rw [decide_eq_false hq, if_pos rfl]
  rw [evalBody_single_step]
  rw [eval_tailcall_app (b + 2) dd q fid s hf h0 hfid]

/-- The trampoline pump: from any loop activation holding counter `m`,
the driver — recursing at a fixed `depth` of 9 and evaluating each
deferred body at `depth - 1` — reaches `done` after `m` more
iterations.  The stack budget is constant; only the fuel grows
linearly. -/
theorem force_loop : ∀ (m : ℕ), ∀ (fid : ℕ) (s : State),
    getFrame s fid = some (actFrame (m : ℚ)) →
    getFrame s 0 = some loopGlobal →
    1 ≤ fid → fid + 1 = s.frames.length →
    ∃ s2, force (m + 18) 9 (.pending bodyList fid) s
      = .ok (.sym "done", s2) := by
  intro m
  induction m with
  | zero =>
      intro fid s hf h0 hfid hlen
      refine ⟨s, ?_⟩
      rw [force_pending_step, show (9 : ℕ) - 1 = 8 from rfl,
        show bodyList = Value.pair loopBody Value.nil from rfl,
        evalBody_single_step,
        loopBody_eval_zero 0 0 _ fid s hf h0 hfid (by push_cast; norm_num)]
      simp only [exBind_ok]
      rw [force_done]
  | succ m ih =>
      intro fid s hf h0 hfid hlen
      obtain ⟨s2, hs2⟩ := ih s.frames.length
        { frames := s.frames ++ [actFrame (m : ℚ)], macros := s.macros }
        (List.getElem?_concat_length s.frames (actFrame (m : ℚ)))
        ((List.getElem?_append_left (by omega)).trans h0)
        (by omega)
        (by simp)
      refine ⟨s2, ?_⟩
      rw [force_pending_step, show (9 : ℕ) - 1 = 8 from rfl,
        show bodyList = Value.pair loopBody Value.nil from rfl,
        evalBody_single_step,
        loopBody_eval_succ (m + 1) 0 _ fid s hf h0 hfid
          (by
            push_cast
            have hm : (0 : ℚ) ≤ (m : ℚ) := Nat.cast_nonneg m
            linarith),
        show ((m + 1 : ℕ) : ℚ) - 1 = (m : ℚ) from by push_cast; ring]
      simp only [exBind_ok]
      rw [hs2]

/-- C2.  Tail recursion runs in constant stack depth.  With
`(define (loop n) (if (< n 1) (quote done) (loop (- n 1))))` evaluated
into the initial environment: (i) the `define` produces the closure
environment `loopState1`; (ii) in every loop activation with counter
`q ≥ 1`, however many frames have accumulated, evaluating the body in
tail position returns a deferred `pending` thunk (the tail call pushes
a frame and defers instead of recursing); and (iii) for EVERY `n`, the
call `(loop n)` runs at the SAME fixed stack depth 10 — only the fuel
`n + 20` grows — and terminates with the symbol `done` and no
stack-overflow error: the trampoline forces each thunk iteratively at
constant depth. -/
theorem c2_tail_recursion (n : ℕ) :
    eval 9 9 loopDefineSexp 0 false initState
      = .ok (.done (.sym "loop"), loopState1) ∧
    (∀ (b dd : ℕ) (q : ℚ) (fid : ℕ) (s : State),
      getFrame s fid = some (actFrame q) →
      getFrame s 0 = some loopGlobal → 1 ≤ fid → ¬ q < 1 →
      eval (b + 16) (dd + 7) loopBody fid true s
        = .ok (.pending bodyList s.frames.length,
            { frames := s.frames ++ [actFrame (q - 1)],
              macros := s.macros })) ∧
    (∃ s2, evalPublic (n + 20) 10 (loopCall n) 0 loopState1
      = .ok (.sym "done", s2)) := by
  refine ⟨loop_define_eval,
    fun b dd q fid s hf h0 hfid hq =>
      loopBody_eval_succ b dd q fid s hf h0 hfid hq, ?_⟩
  rcases n with _ | m
  · refine ⟨{ frames := (loopState1.frames
                ++ [bindArgs ["n"] none [Value.num ((0 : ℕ) : ℚ)] 0]),
              macros := loopState1.macros }, ?_⟩
    unfold evalPublic
    rw [loopCall]
    rw [eval_pair_sym_step, evalSym_app_loop_step]
    rw [evalAppForm_closure_nontail 17 10 (.sym "loop")
      (.pair (.num ((0 : ℕ) : ℚ)) .nil) 0 loopState1
      (.done loopClos, loopState1) ["n"] none bodyList 0 loopState1
      [.num ((0 : ℕ) : ℚ)] loopState1
      (eval_sym_self 16 8 "loop" loopClos 0 false loopState1 loopGlobal
        (by with_unfolding_all rfl) loopGlobal_loop)
      (force_done 17 9 loopClos loopState1)
      (evalArgs_one 15 7 (.num ((0 : ℕ) : ℚ)) (.num ((0 : ℕ) : ℚ)) 0
        loopState1
        (eval_num_step 15 7 ((0 : ℕ) : ℚ) 0 false loopState1))]
    rw [show (10 : ℕ) - 1 = 9 from rfl,
      show bodyList = Value.pair loopBody Value.nil from rfl,
      evalBody_single_step]
    rw [loopBody_eval_zero 0 1 ((0 : ℕ) : ℚ) loopState1.frames.length
      { frames := (loopState1.frames ++ [bindArgs ["n"] none [Value.num ((0 : ℕ) : ℚ)] 0]), macros := loopState1.macros }
      (by with_unfolding_all rfl) (by with_unfolding_all rfl)
      Nat.le.refl (by push_cast; norm_num)]
    simp only [exBind_ok]
    rw [force_done]
    simp only [exBind_ok]
    rw [force_done]
  · obtain ⟨s2, hs2⟩ := force_loop m 2
      { frames := [loopGlobal, actFrame ((m + 1 : ℕ) : ℚ),
          actFrame ((m : ℕ) : ℚ)], macros := [] }
      (by with_unfolding_all rfl) (by with_unfolding_all rfl)
      (by omega) (by with_unfolding_all rfl)
    refine ⟨s2, ?_⟩
    unfold evalPublic
    rw [loopCall]
    rw [eval_pair_sym_step, evalSym_app_loop_step]
    rw [evalAppForm_closure_nontail (m + 18) 10 (.sym "loop")
      (.pair (.num ((m + 1 : ℕ) : ℚ)) .nil) 0 loopState1
      (.done loopClos, loopState1) ["n"] none bodyList 0 loopState1
      [.num ((m + 1 : ℕ) : ℚ)] loopState1
      (eval_sym_self (m + 17) 8 "loop" loopClos 0 false loopState1
        loopGlobal (by with_unfolding_all rfl) loopGlobal_loop)
      (force_done (m + 18) 9 loopClos loopState1)
      (evalArgs_one (m + 16) 7 (.num ((m + 1 : ℕ) : ℚ))
        (.num ((m + 1 : ℕ) : ℚ)) 0 loopState1
        (eval_num_step (m + 16) 7 ((m + 1 : ℕ) : ℚ) 0 false loopState1))]
    rw [show (10 : ℕ) - 1 = 9 from rfl,
      show bodyList = Value.pair loopBody Value.nil from rfl,
      evalBody_single_step]
    rw [show ({ frames := (loopState1.frames ++ [bindArgs ["n"] none [Value.num ((m + 1 : ℕ) : ℚ)] 0]), macros := loopState1.macros } : State)
        = ({ frames := [loopGlobal, actFrame ((m + 1 : ℕ) : ℚ)], macros := [] } : State) from by with_unfolding_all rfl,
      show loopState1.frames.length = 1 from rfl]
    rw [loopBody_eval_succ (m + 1) 1 ((m + 1 : ℕ) : ℚ) 1
      ({ frames := [loopGlobal, actFrame ((m + 1 : ℕ) : ℚ)], macros := [] } : State)
      (by with_unfolding_all rfl) (by with_unfolding_all rfl)
      Nat.le.refl
      (by
        push_cast
        have hm : (0 : ℚ) ≤ (m : ℚ) := Nat.cast_nonneg m
        linarith)]
    rw [show ((m + 1 : ℕ) : ℚ) - 1 = ((m : ℕ) : ℚ) from by push_cast; ring]
    rw [show ({ frames := [loopGlobal, actFrame ((m + 1 : ℕ) : ℚ)], macros := [] } : State).frames.length = 2 from rfl]
    rw [show ({ frames := (({ frames := [loopGlobal, actFrame ((m + 1 : ℕ) : ℚ)], macros := [] } : State).frames ++ [actFrame ((m : ℕ) : ℚ)]), macros := ({ frames := [loopGlobal, actFrame ((m + 1 : ℕ) : ℚ)], macros := [] } : State).macros } : State)
        = ({ frames := [loopGlobal, actFrame ((m + 1 : ℕ) : ℚ), actFrame ((m : ℕ) : ℚ)], macros := [] } : State) from by with_unfolding_all rfl]
    simp only [exBind_ok]
    rw [hs2]
    simp only [exBind_ok]
    rw [force_done]

/-- A concrete mid-loop activation for the C2 witness. -/
def c2WitState : State :=
  { frames := [loopGlobal, actFrame 5], macros := [] }

/-- Witness for C2: at counter 5 the body evaluation returns a
deferred thunk, and `(loop 3)` terminates with `done` at stack
depth 10. -/
theorem c2_tail_recursion_witness :
    eval 16 7 loopBody 1 true c2WitState
      = .ok (.pending bodyList c2WitState.frames.length,
          { frames := c2WitState.frames ++ [actFrame (5 - 1)],
            macros := c2WitState.macros }) ∧
    (∃ s2, evalPublic 23 10 (loopCall 3) 0 loopState1
      = .ok (.sym "done", s2)) := by
  constructor
  · exact (c2_tail_recursion 3).2.1 0 0 5 1 c2WitState
      (by with_unfolding_all rfl) (by with_unfolding_all rfl)
      Nat.le.refl (by norm_num)
  · exact (c2_tail_recursion 3).2.2
